import Mathlib

/-!
Verification of the DART disclosure-collection scripts
(src/main.py, src/rights_issue.py, src/equity_linked.py).

The Python sources are shallowly embedded below.  Strings are Lean
`String`s; Python `None` / pandas `NaN` inputs are `Option`; Python
floats are modelled as exact rationals `ℚ` (faithful for the sign,
zero and magnitude comparisons the properties below are about; binary
rounding of IEEE doubles is not modelled); functions that may raise are
modelled with `Except`, and external collaborators (HTTP endpoints,
the spreadsheet) are passed in as explicit function arguments.
-/

namespace DartDB

/-! ## Character and string helpers

Python's `re` module treats `\s` as Unicode whitespace (this includes
the no-break space U+00A0, the vertical tab and the form feed, which
`Char.isWhitespace` does not cover). -/

/-- Whitespace as Python's `str.strip` / `re` `\s` see it (common cases). -/
def pyWs (c : Char) : Bool :=
  c.isWhitespace || c.toNat = 0xa0 || c.toNat = 0x0b || c.toNat = 0x0c

/-- `leadsWith needle hay` : `needle` is an initial segment of `hay`. -/
def leadsWith : List Char → List Char → Bool
  | [], _ => true
  | _ :: _, [] => false
  | a :: as, b :: bs => a = b && leadsWith as bs

/-- `hasSub hay needle` : `needle` occurs contiguously inside `hay`
(Python's `needle in hay`). -/
def hasSub (hay needle : List Char) : Bool :=
  match hay with
  | [] => needle.isEmpty
  | _ :: t => leadsWith needle hay || hasSub t needle

/-- Python `needle in hay` on strings. -/
def strContains (hay needle : String) : Bool :=
  hasSub hay.toList needle.toList

/-- Python `any(hay contains v for v in vs)`. -/
def containsAny (hay : String) (vs : List String) : Bool :=
  vs.any (fun v => strContains hay v)

/-- `re.search(r'^(p1|p2|...)', s)` : `s` starts with one of the given
alternatives. -/
def startsWithAny (ps : List String) (s : String) : Bool :=
  ps.any (fun p => leadsWith p.toList s.toList)

/-- Remove every character satisfying `p` (Python `re.sub(cls, '', s)`). -/
def removeBy (p : Char → Bool) (s : String) : String :=
  String.mk (s.toList.filter (fun c => !(p c)))

/-- Maximal runs of characters satisfying `p`, left to right
(accumulator-passing so the recursion is structural). -/
def runsByAux (p : Char → Bool) : List Char → List Char → List (List Char)
  | [], cur => if cur.isEmpty then [] else [cur.reverse]
  | c :: cs, cur =>
    if p c then runsByAux p cs (c :: cur)
    else if cur.isEmpty then runsByAux p cs []
    else cur.reverse :: runsByAux p cs []

/-- Maximal runs of characters satisfying `p`. -/
def runsBy (p : Char → Bool) (cs : List Char) : List (List Char) :=
  runsByAux p cs []

/-- Decimal digits to a natural number. -/
def digitsToNat (ds : List Char) : Nat :=
  ds.foldl (fun n c => 10 * n + (c.toNat - '0'.toNat)) 0

/-- Explicit rational power (kept first-order so that proofs by
evaluation reduce). -/
def powQ (q : ℚ) : Nat → ℚ
  | 0 => 1
  | n + 1 => powQ q n * q

/-- Explicit rational power with integer exponent. -/
def zpowQ (q : ℚ) : Int → ℚ
  | .ofNat n => powQ q n
  | .negSucc n => 1 / powQ q (n + 1)

/-- Drop leading and trailing Python whitespace (`str.strip()`). -/
def pyStrip (s : String) : String :=
  String.mk (((s.toList.dropWhile pyWs).reverse.dropWhile pyWs).reverse)

/-- ASCII lower-casing of one character (what Python's `str.lower()`
does on the inputs compared below, which are ASCII words). -/
def lowerAscii (c : Char) : Char :=
  if 'A' ≤ c && c ≤ 'Z' then Char.ofNat (c.toNat + 32) else c

/-- ASCII `str.lower()`. -/
def toLowerA (s : String) : String := String.mk (s.toList.map lowerAscii)

/-- `clean_str` (src/main.py): `None`→`""`; `str(x).strip()`; a bare
`"nan"` (case-insensitively) collapses to `""`. -/
def clean_str (x : Option String) : String :=
  match x with
  | none => ""
  | some s =>
    let t := pyStrip s
    if toLowerA t = "nan" then "" else t

/-- `normalize_ws` (src/main.py): `clean_str`, collapse every whitespace
run to one space, strip.  Equivalent to joining the whitespace-separated
words with single spaces. -/
def normalize_ws (s : String) : String :=
  String.intercalate " "
    ((runsBy (fun c => !(pyWs c)) (clean_str (some s)).toList).map String.mk)

/-- `" ".join(xs)`. -/
def joinSp (xs : List String) : String :=
  String.intercalate " " xs

/-! ## src/rights_issue.py — the value cleaners inside `extract_xml_details` -/

/-- `re.sub(r'[\s,원]', '', text)` in `clean_price`. -/
def stripPriceJunk (s : String) : String :=
  removeBy (fun c => pyWs c || c = ',' || c = '원') s

/-- The alternatives of `^(미정|해당없음|기재생략|-)` shared by
`clean_price` and `clean_date`. -/
def undeterminedMarks : List String := ["미정", "해당없음", "기재생략", "-"]

/-- `clean_price` (src/rights_issue.py, lines 116-129).  The result is the
matched price as a number; `none` is the script's `'-'` blank (the script
renders a found value as `f"{val:,}"`, i.e. the same number with thousands
separators).  The regex `(?<!\d)([1-9]\d{2,})(?!\d)` picks maximal digit
runs of length ≥ 3 whose first digit is non-zero; the first such run that
is not a calendar year 2023-2027 wins. -/
def clean_price (text : Option String) : Option Nat :=
  match text with
  | none => none
  | some t =>
    if t = "" then none
    else
      let tc := stripPriceJunk t
      if startsWithAny undeterminedMarks tc then none
      else
        let nums := (runsBy Char.isDigit tc.toList).filterMap (fun r =>
          if 3 ≤ r.length && r.headD '0' ≠ '0' then some (digitsToNat r) else none)
        nums.find? (fun v => !([2023, 2024, 2025, 2026, 2027].contains v))

/-- One date separator class of `clean_date`'s regex:
`[\-\.년/]` (first) and `[\-\.월/]` (second). -/
def dateSep1 (c : Char) : Bool := c = '-' || c = '.' || c = '년' || c = '/'

def dateSep2 (c : Char) : Bool := c = '-' || c = '.' || c = '월' || c = '/'

/-- Try to match `(20[2-3]\d)[\-\.년/]([0-1]?\d)[\-\.월/]([0-3]?\d)` at the
head of `cs`, with the regex engine's backtracking on the greedy optional
month/day digits.  Returns the three captured digit groups. -/
def parseDateAt (cs : List Char) : Option (List Char × List Char × List Char) :=
  match cs with
  | '2' :: '0' :: y3 :: y4 :: s1 :: rest =>
    if (y3 = '2' || y3 = '3') && y4.isDigit && dateSep1 s1 then
      -- month: prefer two digits `[0-1]\d` whose continuation still
      -- matches a second separator, else one digit.
      let tryDay : List Char → List Char → Option (List Char × List Char × List Char) :=
        fun mth after =>
          match after with
          | d1 :: d2 :: _ =>
            if (d1 = '0' || d1 = '1' || d1 = '2' || d1 = '3') && d2.isDigit then
              some (['2', '0', y3, y4], mth, [d1, d2])
            else if d1.isDigit then some (['2', '0', y3, y4], mth, [d1]) else none
          | [d1] => if d1.isDigit then some (['2', '0', y3, y4], mth, [d1]) else none
          | [] => none
      match rest with
      | m1 :: m2 :: s2 :: after =>
        if (m1 = '0' || m1 = '1') && m2.isDigit && dateSep2 s2 then
          tryDay [m1, m2] after
        else if m1.isDigit && dateSep2 m2 then tryDay [m1] (s2 :: after)
        else none
      | m1 :: m2 :: after =>
        if m1.isDigit && dateSep2 m2 then tryDay [m1] after else none
      | _ => none
    else none
  | _ => none

/-- `re.search` of the date pattern: first position where it matches. -/
def findDate : List Char → Option (List Char × List Char × List Char)
  | [] => none
  | c :: cs =>
    match parseDateAt (c :: cs) with
    | some r => some r
    | none => findDate cs

/-- Python `str.zfill(2)` on a digit group. -/
def zfill2 (ds : List Char) : List Char :=
  if ds.length < 2 then '0' :: ds else ds

/-- `clean_date` (src/rights_issue.py, lines 132-142): normalize a date to
the `"YYYY년 MM월 DD일"` display form, `none` for the `'-'` blank. -/
def clean_date (text : Option String) : Option String :=
  match text with
  | none => none
  | some t =>
    if t = "" then none
    else
      let tc := removeBy pyWs t
      if startsWithAny undeterminedMarks tc then none
      else
        match findDate tc.toList with
        | some (y, m, d) =>
          some (String.mk y ++ "년 " ++ String.mk (zfill2 m) ++ "월 "
            ++ String.mk (zfill2 d) ++ "일")
        | none => none

/-- The number token recognised by `re.search(r'([+\-]?\d+(?:\.\d+)?)', s)`
inside `clean_discount`: an optional sign glyph, an integer digit group and
an optional fractional digit group. -/
structure NumTok where
  neg : Bool
  pos : Bool
  intPart : List Char
  fracPart : List Char
deriving DecidableEq, Repr

/-- Greedy digits-dot-digits continuation of the number regex, given the
characters after the optional sign. -/
def parseNumBody (sgnNeg sgnPos : Bool) (cs : List Char) : NumTok :=
  let ip := cs.takeWhile Char.isDigit
  let rest := cs.drop ip.length
  match rest with
  | '.' :: r2 =>
    let fp := r2.takeWhile Char.isDigit
    if fp.isEmpty then ⟨sgnNeg, sgnPos, ip, []⟩ else ⟨sgnNeg, sgnPos, ip, fp⟩
  | _ => ⟨sgnNeg, sgnPos, ip, []⟩

/-- Leftmost match of `([+\-]?\d+(?:\.\d+)?)` in the character list. -/
def findNumTok : List Char → Option NumTok
  | [] => none
  | c :: cs =>
    if c.isDigit then some (parseNumBody false false (c :: cs))
    else if (c = '-' || c = '+') && (cs.headD ' ').isDigit then
      some (parseNumBody (c = '-') (c = '+') cs)
    else findNumTok cs

/-- The rational value of a matched number token (`float(val_str)`;
exact where the double is, close otherwise — the comparisons performed on
it below are about sign, zero and the 100 threshold). -/
def tokVal (t : NumTok) : ℚ :=
  let m : ℚ := (digitsToNat t.intPart : ℚ)
    + (digitsToNat t.fracPart : ℚ) / powQ 10 t.fracPart.length
  if t.neg then -m else m

/-- The value `clean_discount` returns: `unknown` is the `'-'` blank;
`pct q` is the formatted percentage string whose signed numeric value
(before the two-decimal rounding of `f"%.2f"`) is `q` — e.g. the script's
`"0.00%"` is `pct 0` and `"-5.00%"` is `pct (-5)`. -/
inductive DiscRes where
  | unknown : DiscRes
  | pct : ℚ → DiscRes
deriving DecidableEq, Repr

/-- The alternatives of `^(미정|해당사항없음|해당없음|기재생략)` in
`clean_discount` (note: unlike `clean_price`, this branch returns the
explicit zero rate, not the blank). -/
def discUndetermined : List String := ["미정", "해당사항없음", "해당없음", "기재생략"]

/-- The price-comparison sign (`math_sign` in `clean_discount`): the
issue and base prices are the `clean_price` results (the script converts
their display strings back with `float(p.replace(',', ''))`). -/
def mathSign (issue base : Option Nat) : Int :=
  match issue, base with
  | some i, some b =>
    if 0 < b then (if b < i then 1 else if i < b then -1 else 0) else 0
  | _, _ => 0

/-- The leftmost number token of the whitespace-stripped discount cell. -/
def discTok (t : String) : Option NumTok :=
  findNumTok (removeBy pyWs t).toList

/-- `'할증' in header_text and '할인' not in header_text`: the row label
names only the premium. -/
def premiumOnlyLabel (header : String) : Bool :=
  strContains header "할증" && !(strContains header "할인")

/-- `clean_discount` (src/rights_issue.py, lines 145-183).  Sign priority
as the code has it: price comparison first, then the sign glyph on the
token, then the `할증`/`할인` wording of the row label. -/
def clean_discount (text : Option String) (issue base : Option Nat)
    (header : String) : DiscRes :=
  match text with
  | none => .unknown
  | some t =>
    if t = "" then .unknown
    else if startsWithAny discUndetermined (removeBy pyWs t) then .pct 0
    else
      let ms := mathSign issue base
      match discTok t with
      | some tok =>
        let v := tokVal tok
        if v = 0 then .pct 0
        else if 100 < |v| then .unknown
        else if ms ≠ 0 then .pct (|v| * (ms : ℚ))
        else if tok.neg then .pct v
        else if tok.pos then .pct v
        else if premiumOnlyLabel header then .pct v
        else .pct (-|v|)
      | none => if removeBy pyWs t = "-" then .pct 0 else .unknown

/-! ## src/rights_issue.py — the structural table scan of `extract_xml_details`

A parsed document is modelled as the list of its table rows (each row the
list of its cells' text, `tr` → `th`/`td` in the source) together with the
document's full text; the eight label regexes on the whitespace-stripped
header cell are implemented one by one below. -/

/-- `re.sub(r'\s+', '', header_raw.replace('\xa0', ''))`. -/
def stripHdr (s : String) : String :=
  removeBy pyWs s

/-- `re.search(r'(w1|w2|...).*tail', s)`: some alternative occurs and the
tail word occurs at or after the end of that occurrence. -/
def afterWordHas (words : List String) (tail : List Char) : List Char → Bool
  | [] => false
  | c :: cs =>
    (words.any fun w =>
      leadsWith w.toList (c :: cs) && hasSub ((c :: cs).drop w.toList.length) tail)
    || afterWordHas words tail cs

/-- `(1주당|확정|예정|모집|발행|신주).*발행가액`. -/
def issuePriceHdr (h : String) : Bool :=
  afterWordHas ["1주당", "확정", "예정", "모집", "발행", "신주"] "발행가액".toList h.toList

/-- `^기준(주가|발행가액|가액|단가|주당가액)`. -/
def basePriceHdr (h : String) : Bool :=
  startsWithAny ["기준주가", "기준발행가액", "기준가액", "기준단가", "기준주당가액"] h

/-- `(할인|할증)[율률]`. -/
def discountHdr (h : String) : Bool :=
  containsAny h ["할인율", "할인률", "할증율", "할증률"]

/-- `(최초)?이사회결의일`. -/
def boardDateHdr (h : String) : Bool := strContains h "이사회결의일"

/-- `(납입일|주금납입기일)`. -/
def payDateHdr (h : String) : Bool := containsAny h ["납입일", "주금납입기일"]

/-- `(신주의)?배당기산일`. -/
def divDateHdr (h : String) : Bool := strContains h "배당기산일"

/-- `(신주권교부예정일|신주의상장예정일|상장예정일|신주상장예정일)`. -/
def listDateHdr (h : String) : Bool :=
  containsAny h ["신주권교부예정일", "신주의상장예정일", "상장예정일", "신주상장예정일"]

/-- The `raw_data` dictionary filled by the row scan; a `none` field is a
key absent from the dict. -/
structure RIRaw where
  issue_price : Option String := none
  base_price : Option String := none
  discount : Option String := none
  discount_header : Option String := none
  board_date : Option String := none
  pay_date : Option String := none
  div_date : Option String := none
  list_date : Option String := none
deriving DecidableEq, Repr

/-- The seven value fields of `raw_data` (the auxiliary
`discount_header` is stored alongside `discount`). -/
inductive RIField where
  | issue_price | base_price | discount | board_date | pay_date | div_date | list_date
deriving DecidableEq, Repr

def RIRaw.getF (r : RIRaw) : RIField → Option String
  | .issue_price => r.issue_price
  | .base_price => r.base_price
  | .discount => r.discount
  | .board_date => r.board_date
  | .pay_date => r.pay_date
  | .div_date => r.div_date
  | .list_date => r.list_date

/-- The label regex of each `raw_data` field, as a predicate on the
whitespace-stripped header cell. -/
def riHdrMatch : RIField → String → Bool
  | .issue_price, h => issuePriceHdr h
  | .base_price, h => basePriceHdr h
  | .discount, h => discountHdr h
  | .board_date, h => boardDateHdr h
  | .pay_date, h => payDateHdr h
  | .div_date, h => divDateHdr h
  | .list_date, h => listDateHdr h

/-- The fields in the order of the `elif` chain of src/rights_issue.py
lines 92-113. -/
def riFields : List RIField :=
  [.issue_price, .base_price, .discount, .board_date, .pay_date, .div_date, .list_date]

/-- Store a candidate value under a field; the discount branch also
records the header cell for the later sign inference (line 101). -/
def RIRaw.setF (raw : RIRaw) (f : RIField) (val header : String) : RIRaw :=
  match f with
  | .issue_price => { raw with issue_price := some val }
  | .base_price => { raw with base_price := some val }
  | .discount => { raw with discount := some val, discount_header := some header }
  | .board_date => { raw with board_date := some val }
  | .pay_date => { raw with pay_date := some val }
  | .div_date => { raw with div_date := some val }
  | .list_date => { raw with list_date := some val }

/-- One cell position of the row scan (src/rights_issue.py lines 81-113):
the header is the current cell with whitespace removed, the candidate
value is the join of all the cells to its right **in the same row**, and
the `elif` chain — here the first match over `riFields` in chain order —
fires only for a key that is still absent. -/
def riCellStep (cells : List String) (raw : RIRaw) (i : Nat) : RIRaw :=
  if i + 1 < cells.length then
    match riFields.find? (fun f =>
        (raw.getF f).isNone && riHdrMatch f (stripHdr (cells.getD i ""))) with
    | some f => raw.setF f (joinSp (cells.drop (i + 1))) (stripHdr (cells.getD i ""))
    | none => raw
  else raw

/-- Scan one table row left to right. -/
def riScanRow (raw : RIRaw) (cells : List String) : RIRaw :=
  (List.range cells.length).foldl (riCellStep cells) raw

/-- Scan every `tr` of the document in order. -/
def riScan (trs : List (List String)) : RIRaw :=
  trs.foldl riScanRow {}

/-- The `extracted` record returned by `extract_xml_details`; the string
defaults are exactly the script's (lines 57-60): `'-'` is the unknown
marker, `'원문참조'` the generic investor marker. -/
structure RIExtracted where
  board_date : String := "-"
  issue_price : String := "-"
  base_price : String := "-"
  discount : String := "-"
  pay_date : String := "-"
  div_date : String := "-"
  list_date : String := "-"
  investor : String := "원문참조"
deriving DecidableEq, Repr

/-- Display form of a `clean_price` result (`f"{val:,}"` renders the
number with thousands separators; the separator positions are immaterial
to the properties below, so the digits are kept plain). -/
def dispPrice : Option Nat → String
  | none => "-"
  | some n => toString n

/-- Display form of a `clean_date` result. -/
def dispDate : Option String → String
  | none => "-"
  | some s => s

/-- Display form of a `clean_discount` result; `q` stands for the
`%+.2f`-formatted percentage. -/
def dispDisc : DiscRes → String
  | .unknown => "-"
  | .pct q => toString q ++ "%"

/-- A successfully fetched and unzipped document: its table rows and its
full text (`soup.get_text(...)` with the spaces removed). -/
structure RIDoc where
  trs : List (List String)
  fullText : String
deriving Repr

/-- `extract_xml_details` (src/rights_issue.py, lines 47-201).  The
document download/unzip is an explicit `Except` argument: any exception
(network failure, bad zip, no xml member, undecodable bytes) lands in the
`.error` case, which returns the untouched default record — every field
the unknown marker (lines 198-201). -/
def extract_xml_details (doc : Except String RIDoc) : RIExtracted :=
  match doc with
  | .error _ => {}
  | .ok d =>
    let raw := riScan d.trs
    let issue := clean_price raw.issue_price
    let base := clean_price raw.base_price
    { board_date := dispDate (clean_date raw.board_date)
      issue_price := dispPrice issue
      base_price := dispPrice base
      discount := dispDisc (clean_discount raw.discount issue base
        (raw.discount_header.getD ""))
      pay_date := dispDate (clean_date raw.pay_date)
      div_date := dispDate (clean_date raw.div_date)
      list_date := dispDate (clean_date raw.list_date)
      investor := if strContains (removeBy (fun c => c = ' ') d.fullText) "제3자배정"
        then "제3자배정 (원문참조)" else "원문참조" }

/-! ## src/rights_issue.py — the sheet reconciliation of `get_and_update_yusang`

Lines 353-366: for each freshly computed 21-column row, if its receipt
number is already in column U of the sheet the row at that position is
overwritten **unconditionally**; otherwise it is queued and appended.
The stored row's content is never read, let alone compared. -/

abbrev SheetRow := List String

/-- One iteration of the `get_and_update_yusang` write phase: a known
receipt number goes to the `worksheet.update` calls (1-based row index is
`existing.index(rcept_no) + 1`), an unknown one to the append queue. -/
def yusangStep (existing : List String) (acc : List (Nat × SheetRow) × List SheetRow)
    (r : String × SheetRow) : List (Nat × SheetRow) × List SheetRow :=
  if existing.contains r.1 then
    (acc.1 ++ [(existing.indexOf r.1 + 1, r.2)], acc.2)
  else (acc.1, acc.2 ++ [r.2])

/-- The write decisions of the `get_and_update_yusang` loop: the list of
`worksheet.update` calls in loop order and the `data_to_add` queue passed
to `worksheet.append_rows`. -/
def yusangWrites (existing : List String) (recs : List (String × SheetRow)) :
    List (Nat × SheetRow) × List SheetRow :=
  recs.foldl (yusangStep existing) ([], [])

/-! ## Numeric conversion helpers (`to_int` of both scripts, and the
`parse_*_maybe` helpers of src/main.py)

Python's `float(...)` literal syntax is modelled over exact rationals:
optional sign, digit groups that may contain single underscores between
digits, an optional fraction, an optional decimal exponent.  `inf`,
`infinity` and `nan` words — as well as values at or beyond the IEEE
double range, where `int(float(s))` raises `OverflowError` — are parse
failures here, because every caller catches the raised error and maps it
to its failure value. -/

/-- Parse a Python digit group (digits with single interior underscores).
Returns the digits (underscores removed) and the unconsumed rest. -/
def usDigitsAux : List Char → List Char → List Char × List Char
  | [], acc => (acc.reverse, [])
  | c :: cs, acc =>
    if c.isDigit then usDigitsAux cs (c :: acc)
    else if c = '_' then
      match cs with
      | d :: cs2 =>
        if d.isDigit then usDigitsAux cs2 (d :: acc) else (acc.reverse, c :: cs)
      | [] => (acc.reverse, [c])
    else (acc.reverse, c :: cs)
  termination_by cs _ => cs.length

/-- A digit group must start with a digit. -/
def pyDigits? (cs : List Char) : Option (List Char × List Char) :=
  match cs with
  | c :: _ => if c.isDigit then some (usDigitsAux cs []) else none
  | [] => none

/-- The optional `[eE][+-]?digits` exponent suffix; `some e` only when the
whole rest is consumed. -/
def pyExp? : List Char → Option Int
  | [] => some 0
  | c :: r =>
    if c = 'e' || c = 'E' then
      let se : Int × List Char :=
        match r with
        | '-' :: t => (-1, t)
        | '+' :: t => (1, t)
        | _ => (1, r)
      match pyDigits? se.2 with
      | some (ds, []) => some (se.1 * (digitsToNat ds : Int))
      | _ => none
    else none

/-- Truncation toward zero, `int(...)` on a real value. -/
def truncQ (q : ℚ) : Int := if 0 ≤ q then q.floor else -(-q).floor

/-- Assemble sign, integer digits, fraction digits and the rest (which
must be an exponent or empty) into the parsed value. -/
def pyFloatFinish (sgn : ℚ) (ip fp rest : List Char) : Option ℚ :=
  match pyExp? rest with
  | some e =>
    let v := sgn * ((digitsToNat ip : ℚ)
      + (digitsToNat fp : ℚ) / powQ 10 fp.length) * zpowQ 10 e
    if powQ 2 1024 ≤ |v| then none else some v
  | none => none

/-- Python `float(s)` for finite results (`None` where `float` raises or
where `int(float(s))` would raise on `inf`/`nan`). -/
def pyFloat? (s : String) : Option ℚ :=
  let cs0 := (pyStrip s).toList
  let sc : ℚ × List Char :=
    match cs0 with
    | '-' :: r => (-1, r)
    | '+' :: r => (1, r)
    | _ => (1, cs0)
  let cs := sc.2
  if ["inf", "infinity", "nan"].contains (toLowerA (String.mk cs)) then none
  else
    match pyDigits? cs with
    | some (ip, rest) =>
      match rest with
      | '.' :: r2 =>
        (match pyDigits? r2 with
         | some (fp, rest2) => pyFloatFinish sc.1 ip fp rest2
         | none => pyFloatFinish sc.1 ip [] r2)
      | _ => pyFloatFinish sc.1 ip [] rest
    | none =>
      match cs with
      | '.' :: r2 =>
        (match pyDigits? r2 with
         | some (fp, rest2) => pyFloatFinish sc.1 [] fp rest2
         | none => none)
      | _ => none

/-- `to_int` (src/rights_issue.py lines 206-212 and src/equity_linked.py
lines 134-140, identical): `None`/NaN and blank inputs give `0`, any
parse failure gives `0`, otherwise the value truncated to an integer. -/
def to_int (val : Option String) : Int :=
  match val with
  | none => 0
  | some s =>
    if pyStrip s = "" then 0
    else
      match pyFloat? (removeBy (fun c => c = ',') s) with
      | some q => truncQ q
      | none => 0

/-- src/rights_issue.py lines 288-290: the new-share total is the sum of
the two `to_int`-converted counts. -/
def new_shares (ostk estk : Option String) : Int := to_int ostk + to_int estk

/-- Python `int(t)` on a string containing only digits, `-` and `.`
(which is all that survives `parse_int_maybe`'s character filter). -/
def pyIntLit? (s : String) : Option Int :=
  match s.toList with
  | '-' :: ds =>
    if !ds.isEmpty && ds.all Char.isDigit then some (-(digitsToNat ds : Int)) else none
  | ds => if !ds.isEmpty && ds.all Char.isDigit then some (digitsToNat ds : Int) else none

/-- `parse_int_maybe` (src/main.py lines 42-52). -/
def parse_int_maybe (s : String) : Option Int :=
  let s := clean_str (some s)
  if s = "" then none
  else
    let t := String.mk (s.toList.filter (fun c => c.isDigit || c = '-' || c = '.'))
    if t = "" || t = "-" || t = "." then none
    else if t.toList.contains '.' then (pyFloat? t).map truncQ
    else pyIntLit? t

/-- `parse_float_maybe` (src/main.py lines 54-64). -/
def parse_float_maybe (s : String) : Option ℚ :=
  let s := clean_str (some s)
  if s = "" then none
  else
    let t := String.mk (s.toList.filter (fun c => c.isDigit || c = '-' || c = '.'))
    if t = "" || t = "-" || t = "." then none
    else pyFloat? t

/-! ## src/main.py — the structural extraction tier -/

/-- The keys of the `LABELS` table. -/
inductive MField where
  | board_date | subscription_date | payment_date | underwriter | investor
  | issue_price | base_price | discount_rate | issue_amount
deriving DecidableEq, Repr

/-- `LABELS` (src/main.py lines 173-183), in dict insertion order. -/
def LABELS : List (MField × List String) :=
  [(.board_date, ["이사회결의일", "이사회 결의일", "결정일"]),
   (.subscription_date, ["청약일", "청약예정일"]),
   (.payment_date, ["납입일", "납입예정일"]),
   (.underwriter, ["주관회사", "대표주관회사", "인수회사", "주관증권사"]),
   (.investor, ["제3자배정", "배정대상자", "투자자"]),
   (.issue_price, ["확정발행가액", "발행가액", "1주당 발행가액", "신주발행가액"]),
   (.base_price, ["기준주가", "기준 주가"]),
   (.discount_rate, ["할인율", "할증율", "할인(할증)", "할인(할증률)"]),
   (.issue_amount, ["확정발행금액", "발행금액", "총발행금액", "조달금액", "증자금액"])]

/-- The `out` dictionary of `extract_from_tables`; a `none` field is an
entry still holding `""` (the two are observationally identical: every
consumer goes through `safe_get`, which maps both to `""`). -/
structure DocFields where
  board_date : Option String := none
  subscription_date : Option String := none
  payment_date : Option String := none
  underwriter : Option String := none
  investor : Option String := none
  issue_price : Option String := none
  base_price : Option String := none
  discount_rate : Option String := none
  issue_amount : Option String := none
deriving DecidableEq, Repr

def DocFields.get (d : DocFields) : MField → Option String
  | .board_date => d.board_date
  | .subscription_date => d.subscription_date
  | .payment_date => d.payment_date
  | .underwriter => d.underwriter
  | .investor => d.investor
  | .issue_price => d.issue_price
  | .base_price => d.base_price
  | .discount_rate => d.discount_rate
  | .issue_amount => d.issue_amount

def DocFields.set (d : DocFields) : MField → String → DocFields
  | .board_date, v => { d with board_date := some v }
  | .subscription_date, v => { d with subscription_date := some v }
  | .payment_date, v => { d with payment_date := some v }
  | .underwriter, v => { d with underwriter := some v }
  | .investor, v => { d with investor := some v }
  | .issue_price, v => { d with issue_price := some v }
  | .base_price, v => { d with base_price := some v }
  | .discount_rate, v => { d with discount_rate := some v }
  | .issue_amount, v => { d with issue_amount := some v }

/-- First colon (ASCII or fullwidth) split: `re.split(r"[:：]\s*", cell,
maxsplit=1)` has two parts exactly when a colon occurs; the second part is
everything after it (the eaten `\s*` is re-normalized away anyway). -/
def afterColon? : List Char → Option (List Char)
  | [] => none
  | c :: cs => if c = ':' || c = '：' then some cs else afterColon? cs

/-- The candidate value a matching cell at position `j` yields: the
non-empty remaining cells **of the same row** joined, else the cell's own
text after a colon (src/main.py lines 201-207). -/
def cellCandidate (rowVals : List String) (j : Nat) : Option String :=
  let cell := rowVals.getD j ""
  let tail := (rowVals.drop (j + 1)).filter (fun x => x ≠ "")
  if !tail.isEmpty then some (normalize_ws (joinSp tail))
  else
    match afterColon? cell.toList with
    | some rest => some (normalize_ws (String.mk rest))
    | none => none

/-- The first `LABELS` entry that is still unfilled and whose variant list
matches the cell (`if out.get(key): continue` / `any(v in cell ...)`). -/
def firstLabelMatch (out : DocFields) (cell : String) : Option (MField × List String) :=
  LABELS.find? (fun kv => (out.get kv.1).isNone && kv.2.any (fun v => strContains cell v))

/-- Handle the cell at position `j` of a row (src/main.py lines 194-208);
assigning an empty candidate is a no-op because `""` and "unfilled" are
the same dictionary state. -/
def cellStep (rowVals : List String) (o : DocFields) (j : Nat) : DocFields :=
  let cell := rowVals.getD j ""
  if cell = "" then o
  else
    match firstLabelMatch o cell with
    | some kv =>
      match cellCandidate rowVals j with
      | some v => if v = "" then o else o.set kv.1 v
      | none => o
    | none => o

/-- Scan one table row: normalize every cell, then walk the cells left to
right. -/
def processRow (o : DocFields) (row : List String) : DocFields :=
  let rowVals := row.map normalize_ws
  (List.range rowVals.length).foldl (cellStep rowVals) o

/-- `extract_from_tables` (src/main.py lines 185-209) over the list of
tables (each a list of rows of cell strings, as `pd.read_html` yields
them). -/
def extract_from_tables (dfs : List (List (List String))) : DocFields :=
  dfs.foldl (fun o t => t.foldl processRow o) {}

/-! ## src/main.py — `build_row` and the per-filing loop of `main` -/

/-- The fields of a `piicDecsn` record that `build_row` reads; `none` is
an absent dict key (`safe_get` maps it to `""`). -/
structure Piic where
  corp_name : Option String := none
  corp_cls : Option String := none
  nstk_ostk_cnt : Option String := none
  nstk_estk_cnt : Option String := none
  bfic_tisstk_ostk : Option String := none
  bfic_tisstk_estk : Option String := none
  ic_mthn : Option String := none
  fdpp_fclt : Option String := none
  fdpp_op : Option String := none
  fdpp_bsninh : Option String := none
  fdpp_dtrp : Option String := none
  fdpp_ocsa : Option String := none
  fdpp_etc : Option String := none
deriving DecidableEq, Repr

/-- A list-endpoint item (the keys `main` reads from it). -/
structure Item where
  rcept_no : Option String := none
  rcept_dt : Option String := none
  corp_code : Option String := none
  corp_name : Option String := none
  corp_cls : Option String := none
  report_nm : Option String := none
deriving DecidableEq, Repr

/-- `safe_get(doc, key)`. -/
def docGet (d : DocFields) (f : MField) : String := clean_str (d.get f)

/-- `corp_cls_to_market` (src/main.py lines 66-68). -/
def corp_cls_to_market (corp_cls : String) : String :=
  let c := clean_str (some corp_cls)
  if c = "Y" then "KOSPI"
  else if c = "K" then "KOSDAQ"
  else if c = "N" then "KONEX"
  else if c = "E" then "ETC"
  else c

/-- Round half to even at the integer, Python `round` on an exact value. -/
def roundHalfEvenInt (q : ℚ) : Int :=
  let f := q.floor
  let r := q - (f : ℚ)
  if r < 1 / 2 then f
  else if 1 / 2 < r then f + 1
  else if f % 2 = 0 then f else f + 1

/-- Python `round(q, 2)`. -/
def round2 (q : ℚ) : ℚ := (roundHalfEvenInt (q * 100) : ℚ) / 100

/-- `amount_won_to_eok` (src/main.py lines 78-81). -/
def amount_won_to_eok (won : Int) : ℚ := round2 ((won : ℚ) / 100000000)

/-- One output row of `build_row`, with the 19 columns as named fields in
list order.  Columns that hold a Python number before `str()` is applied
keep the number (`none` renders as `""`); the funding-purpose column keeps
its (label, 억-amount) pairs before they are joined into one string. -/
structure MainRow where
  rcept_no : String
  corp_name : String
  market : String
  board_date : String
  method : String
  product : String
  new_total_str : String
  issue_price_col : String
  base_price_col : String
  amount_eok : Option ℚ
  discount : String
  pre_total_str : String
  ratio : Option ℚ
  subscription_date : String
  payment_date : String
  underwriter : String
  purpose : List (String × ℚ)
  investor : String
  amount_won : Option Int
deriving DecidableEq, Repr

/-- `build_row` (src/main.py lines 265-357). -/
def build_row (it : Item) (piic : Piic) (doc : DocFields) : MainRow :=
  let corp_name :=
    if clean_str it.corp_name ≠ "" then clean_str it.corp_name
    else clean_str piic.corp_name
  let market := corp_cls_to_market
    (if clean_str it.corp_cls ≠ "" then clean_str it.corp_cls
     else clean_str piic.corp_cls)
  let new_common := parse_int_maybe (clean_str piic.nstk_ostk_cnt)
  let new_other := parse_int_maybe (clean_str piic.nstk_estk_cnt)
  let new_total := new_common.getD 0 + new_other.getD 0
  let new_total_str := if new_total ≠ 0 then toString new_total else ""
  let pre_common := parse_int_maybe (clean_str piic.bfic_tisstk_ostk)
  let pre_other := parse_int_maybe (clean_str piic.bfic_tisstk_estk)
  let pre_total := pre_common.getD 0 + pre_other.getD 0
  let pre_total_str := if pre_total ≠ 0 then toString pre_total else ""
  let product :=
    if 0 < new_common.getD 0 && 0 < new_other.getD 0 then "보통주+기타주"
    else if 0 < new_common.getD 0 then "보통주"
    else if 0 < new_other.getD 0 then "기타주"
    else ""
  let issue_price_raw := docGet doc .issue_price
  let base_price_raw := docGet doc .base_price
  let issue_price := parse_int_maybe issue_price_raw
  let base_price := parse_int_maybe base_price_raw
  let issue_amount_raw := docGet doc .issue_amount
  let amount_won0 : Option Int :=
    if issue_amount_raw ≠ "" then
      if strContains issue_amount_raw "억" then
        (parse_float_maybe issue_amount_raw).map (fun v => truncQ (v * 100000000))
      else parse_int_maybe issue_amount_raw
    else none
  let amount_won : Option Int :=
    match amount_won0 with
    | some a => some a
    | none =>
      match issue_price with
      | some ip => if new_total ≠ 0 then some (ip * new_total) else none
      | none => none
  let ratio : Option ℚ :=
    if pre_total ≠ 0 && new_total ≠ 0 then
      some (round2 ((new_total : ℚ) / (pre_total : ℚ) * 100))
    else none
  let purpose :=
    [("시설", piic.fdpp_fclt), ("운영", piic.fdpp_op),
     ("영업양수", piic.fdpp_bsninh), ("채무상환", piic.fdpp_dtrp),
     ("타법인증권취득", piic.fdpp_ocsa), ("기타", piic.fdpp_etc)].filterMap
      (fun lk =>
        match parse_int_maybe (clean_str lk.2) with
        | some v => if 0 < v then some (lk.1, amount_won_to_eok v) else none
        | none => none)
  { rcept_no := clean_str it.rcept_no
    corp_name := corp_name
    market := market
    board_date := docGet doc .board_date
    method := clean_str piic.ic_mthn
    product := product
    new_total_str := new_total_str
    issue_price_col :=
      match issue_price with
      | some i => toString i
      | none => issue_price_raw
    base_price_col :=
      match base_price with
      | some b => toString b
      | none => base_price_raw
    amount_eok := amount_won.map amount_won_to_eok
    discount := docGet doc .discount_rate
    pre_total_str := pre_total_str
    ratio := ratio
    subscription_date := docGet doc .subscription_date
    payment_date := docGet doc .payment_date
    underwriter := docGet doc .underwriter
    purpose := purpose
    investor := docGet doc .investor
    amount_won := amount_won }

/-- The detail-endpoint call of the loop body (src/main.py lines 384-386):
skipped when `corp_code` or `rcept_dt` is blank; **not** guarded by any
try/except, so an `.error` from the endpoint propagates. -/
def itemPiic (piicF : Item → Except String Piic) (it : Item) : Except String Piic :=
  if clean_str it.corp_code ≠ "" && clean_str it.rcept_dt ≠ "" then piicF it
  else .ok {}

/-- The document-fields dictionary the loop body ends up with: the result
of `parse_document_fields` when it returns, the empty dict when it raises
(the try/except at src/main.py lines 388-393). -/
def docOr (docF : Item → Except String DocFields) (it : Item) : DocFields :=
  match docF it with
  | .ok d => d
  | .error _ => {}

/-- One iteration of the per-filing loop (src/main.py lines 379-395): the
document fetch/parse falls back to the empty dict on failure, the detail
fetch is not guarded and propagates its error. -/
def processItem (piicF : Item → Except String Piic)
    (docF : Item → Except String DocFields) (it : Item) : Except String MainRow := do
  let piic ← itemPiic piicF it
  pure (build_row it piic (docOr docF it))

/-- Appending one loop iteration's row to `rows_to_append`. -/
def mainStep (piicF : Item → Except String Piic)
    (docF : Item → Except String DocFields) (acc : List MainRow) (it : Item) :
    Except String (List MainRow) := do
  let row ← processItem piicF docF it
  pure (acc ++ [row])

/-- The rows accumulated into `rows_to_append` by the loop; an uncaught
exception from any iteration aborts the whole loop (and the run). -/
def mainRows (piicF : Item → Except String Piic)
    (docF : Item → Except String DocFields) (items : List Item) :
    Except String (List MainRow) :=
  items.foldlM (mainStep piicF docF) []

/-- `main` after startup (src/main.py lines 370-398): keep the candidates
whose receipt number is not yet in column 1 of the sheet, then run the
loop; the surviving rows are the appended set (`ws.append_rows`), and the
run never overwrites anything. -/
def mainRun (processed : List String) (piicF : Item → Except String Piic)
    (docF : Item → Except String DocFields) (candidates : List Item) :
    Except String (List MainRow) :=
  mainRows piicF docF
    (candidates.filter (fun it => !(processed.contains (clean_str it.rcept_no))))

/-! ## src/equity_linked.py — the reconciliation of `get_and_update_bonds` -/

/-- The placeholder values that mark a sheet cell as still unfilled
(src/equity_linked.py line 316). -/
def blankMarkers : List String := ["X", "-", "", "없음"]

/-- The monitored column positions (0-based: put option, call option,
call ratio, price; line 313). -/
def checkIndices : List Nat := [10, 11, 12, 16]

/-- A stored row needs re-extraction when one of the monitored cells
holds a blank marker (lines 309-318). -/
def needsUpdate (sheetRow : SheetRow) : Bool :=
  checkIndices.any (fun i =>
    decide (i < sheetRow.length) && blankMarkers.contains (sheetRow.getD i ""))

/-- `rcept_row_map` (line 242): receipt number (column 25, index 24) to
1-based sheet row, for rows wide enough to have that column; duplicate
keys keep the last row, as the dict comprehension does. -/
def rceptRowMap (sheet : List SheetRow) : List (String × Nat) :=
  (List.range sheet.length).filterMap (fun i =>
    if 24 < (sheet.getD i []).length then some ((sheet.getD i []).getD 24 "", i + 1)
    else none)

/-- Dict lookup over the association list (last binding wins). -/
def lookupLast (m : List (String × Nat)) (k : String) : Option Nat :=
  (m.reverse.find? (fun e => e.1 == k)).map (fun e => e.2)

/-- The update decision for one already-stored record (src/equity_linked.py
lines 302-331): find the stored row, re-extract only when a monitored cell
is blank, and overwrite only when the fresh row differs from the stored
one with both truncated to the shorter's width
(`updated_row[:len(sheet_row)] != sheet_row[:len(updated_row)]`). -/
def bondsUpdateFor (sheet : List SheetRow) (r : String × SheetRow) :
    Option (Nat × SheetRow) :=
  match lookupLast (rceptRowMap sheet) r.1 with
  | none => none
  | some idx =>
    if needsUpdate (sheet.getD (idx - 1) [])
        && decide (r.2.take (sheet.getD (idx - 1) []).length
          ≠ (sheet.getD (idx - 1) []).take r.2.length)
    then some (idx, r.2) else none

/-- The write decisions of one `get_and_update_bonds` config pass
(lines 277-331): rows with unseen receipt numbers are appended (logic A);
rows with known receipt numbers go through `bondsUpdateFor` (logic B). -/
def bondsWrites (sheet : List SheetRow) (recs : List (String × SheetRow)) :
    List SheetRow × List (Nat × SheetRow) :=
  ((recs.filter (fun r =>
      !(((rceptRowMap sheet).map (fun e => e.1)).contains r.1))).map (fun r => r.2),
   (recs.filter (fun r =>
      ((rceptRowMap sheet).map (fun e => e.1)).contains r.1)).filterMap
      (bondsUpdateFor sheet))

/-- Applying one overwrite (`worksheet.update(values=[row], range_name=
f'A{row_idx}')`) to the stored table. -/
def applyUpdate (sheet : List SheetRow) (u : Nat × SheetRow) : List SheetRow :=
  sheet.set (u.1 - 1) u.2

/-! ## The reconciliation decision as the spec words it -/

/-- The three reconciliation outcomes of spec §4.2. -/
inductive Decision where
  | APPEND | OVERWRITE | SKIP
deriving DecidableEq, Repr

/-- Pad a row with empty cells up to width `n`. -/
def padTo (n : Nat) (r : SheetRow) : SheetRow :=
  r ++ List.replicate (n - r.length) ""

/-- Modelled from the spec (§4.2 Fact Reconciler), for comparison with
the code's behaviour: APPEND when the identity key is absent, OVERWRITE
when present and any field differs after both rows are padded to equal
width, SKIP when present and identical. -/
def specReconcileDecision (stored : Option SheetRow) (fresh : SheetRow) : Decision :=
  match stored with
  | none => .APPEND
  | some s =>
    let n := max s.length fresh.length
    if padTo n s = padTo n fresh then .SKIP else .OVERWRITE

/-! # Properties -/

/-- `mathSign` only takes the values −1, 0, 1. -/
lemma mathSign_cases (issue base : Option Nat) :
    mathSign issue base = 1 ∨ mathSign issue base = 0 ∨ mathSign issue base = -1 := by
  unfold mathSign
  rcases issue with _ | i
  · simp
  · rcases base with _ | b
    · simp
    · dsimp only
      split_ifs <;> simp

/-- Value of a number token without fractional digits. -/
lemma tokVal_nofrac (neg pos : Bool) (ds : List Char) :
    tokVal ⟨neg, pos, ds, []⟩ =
      if neg then -(digitsToNat ds : ℚ) else (digitsToNat ds : ℚ) := by
  have h0 : digitsToNat [] = 0 := rfl
  have hp : powQ 10 0 = 1 := rfl
  unfold tokVal
  dsimp only [List.length_nil]
  rw [h0, hp]
  simp

/-- Evaluation of `clean_discount` once the token is known. -/
lemma clean_discount_eval (t : String) (issue base : Option Nat) (header : String)
    (tok : NumTok) (ht : t ≠ "")
    (hu : startsWithAny discUndetermined (removeBy pyWs t) = false)
    (htok : discTok t = some tok) :
    clean_discount (some t) issue base header =
      (if tokVal tok = 0 then .pct 0
       else if 100 < |tokVal tok| then .unknown
       else if mathSign issue base ≠ 0 then
         .pct (|tokVal tok| * (mathSign issue base : ℚ))
       else if tok.neg then .pct (tokVal tok)
       else if tok.pos then .pct (tokVal tok)
       else if premiumOnlyLabel header then .pct (tokVal tok)
       else .pct (-|tokVal tok|)) := by
  simp only [clean_discount, if_neg ht, hu, Bool.false_eq_true, if_false, htok]

/-- C10: `to_int` is total with value `0` on every missing, blank or
unparseable input, so blank share counts and funding amounts enter the
downstream sums as the number zero (here: the `new_shares` sum of
src/rights_issue.py) rather than as a distinct unknown marker. -/
theorem to_int_zero_on_missing_blank_unparseable :
    to_int none = 0
    ∧ (∀ s, pyStrip s = "" → to_int (some s) = 0)
    ∧ (∀ s, pyFloat? (removeBy (fun c => c = ',') s) = none → to_int (some s) = 0)
    ∧ (∀ estk, new_shares none estk = to_int estk)
    ∧ (∀ ostk, new_shares ostk none = to_int ostk) := by
  refine ⟨rfl, ?_, ?_, ?_, ?_⟩
  · intro s h
    simp [to_int, h]
  · intro s h
    simp only [to_int, h]
    split <;> rfl
  · intro estk
    simp [new_shares, to_int]
  · intro ostk
    simp [new_shares, to_int]

/-- Witness for C10: the blank, whitespace and non-numeric inputs all
convert to zero and drop out of the share sum. -/
theorem to_int_zero_on_missing_blank_unparseable_witness :
    to_int (some "  ") = 0 ∧ to_int (some "일백만원") = 0
    ∧ new_shares none (some "5,000") = to_int (some "5,000") :=
  ⟨to_int_zero_on_missing_blank_unparseable.2.1 "  " (by decide),
   to_int_zero_on_missing_blank_unparseable.2.2.1 "일백만원" (by decide),
   to_int_zero_on_missing_blank_unparseable.2.2.2.1 (some "5,000")⟩

/-- C8 (counterexample): src/main.py `build_row` persists the raw
discount text untouched — `"150%"`, whose rate token has magnitude
150 > 100, goes to the store as is (while the rights-issue cleaner would
have rejected the same candidate), so the claimed bound on every
*persisted* non-unknown rate fails on the main.py pipeline. -/
theorem persisted_rate_bound_counterexample :
    (build_row {} {} { discount_rate := some "150%" }).discount = "150%"
    ∧ discTok "150%" = some ⟨false, false, ['1', '5', '0'], []⟩
    ∧ tokVal ⟨false, false, ['1', '5', '0'], []⟩ = 150
    ∧ (100 : ℚ) < 150
    ∧ clean_discount (some "150%") none none "" = .unknown := by
  have htok : discTok "150%" = some ⟨false, false, ['1', '5', '0'], []⟩ := by decide
  have hv : tokVal ⟨false, false, ['1', '5', '0'], []⟩ = 150 := by
    rw [tokVal_nofrac]
    norm_num [show digitsToNat ['1', '5', '0'] = 150 from by decide]
  refine ⟨by decide, htok, hv, by norm_num, ?_⟩
  rw [clean_discount_eval _ none none "" _ (by decide) (by decide) htok, hv]
  norm_num

/-- C8 (amended): in `clean_discount` a zero value or a recognized
not-applicable phrase yields the explicit zero rate, a magnitude above
100 is rejected back to the unknown marker, and consequently every
non-unknown rate *this cleaner* emits has magnitude at most 100 — while
src/main.py's `build_row` stores the raw discount text without any such
validation. -/
theorem clean_discount_zero_and_bound :
    (∀ text issue base header q,
      clean_discount text issue base header = .pct q → |q| ≤ 100)
    ∧ (∀ t issue base header,
      startsWithAny discUndetermined (removeBy pyWs t) = true →
      clean_discount (some t) issue base header = .pct 0)
    ∧ (∀ t issue base header tok,
      startsWithAny discUndetermined (removeBy pyWs t) = false →
      discTok t = some tok → tokVal tok = 0 →
      clean_discount (some t) issue base header = .pct 0)
    ∧ (∀ t issue base header tok,
      startsWithAny discUndetermined (removeBy pyWs t) = false →
      discTok t = some tok → 100 < |tokVal tok| →
      clean_discount (some t) issue base header = .unknown)
    ∧ (∀ it piic doc, (build_row it piic doc).discount = docGet doc .discount_rate) := by
  refine ⟨?_, ?_, ?_, ?_, ?_⟩
  · intro text issue base header q h
    rcases text with _ | t
    · simp [clean_discount] at h
    · by_cases ht : t = ""
      · subst ht; simp [clean_discount] at h
      · by_cases hu : startsWithAny discUndetermined (removeBy pyWs t) = true
        · simp only [clean_discount, if_neg ht, if_pos hu] at h
          cases h; norm_num
        · rcases hft : discTok t with _ | tok
          · simp only [clean_discount, if_neg ht, if_neg hu, hft] at h
            split_ifs at h with h1
            cases h
            norm_num
          · simp only [clean_discount, if_neg ht, if_neg hu, hft] at h
            by_cases h0 : tokVal tok = 0
            · rw [if_pos h0] at h
              cases h; norm_num
            · rw [if_neg h0] at h
              by_cases h100 : (100 : ℚ) < |tokVal tok|
              · rw [if_pos h100] at h
                cases h
              · rw [if_neg h100] at h
                push_neg at h100
                by_cases hms : mathSign issue base = 0
                · rw [if_neg (not_not_intro hms)] at h
                  split_ifs at h <;> (cases h; simpa [abs_neg, abs_abs] using h100)
                · rw [if_pos hms] at h
                  cases h
                  rcases mathSign_cases issue base with hm | hm | hm
                  · rw [hm]; simpa [abs_mul, abs_abs] using h100
                  · exact absurd hm hms
                  · rw [hm]; simpa [abs_mul, abs_abs] using h100
  · intro t issue base header hu
    have ht : t ≠ "" := by
      intro he
      rw [he] at hu
      exact absurd hu (by decide)
    simp [clean_discount, ht, hu]
  · intro t issue base header tok hu hft h0
    have ht : t ≠ "" := by
      intro he
      rw [he] at hft
      have hnone : discTok "" = none := rfl
      rw [hnone] at hft
      cases hft
    simp [clean_discount, ht, hu, hft, h0]
  · intro t issue base header tok hu hft h100
    have ht : t ≠ "" := by
      intro he
      rw [he] at hft
      have hnone : discTok "" = none := rfl
      rw [hnone] at hft
      cases hft
    have h0 : tokVal tok ≠ 0 := by
      intro he; rw [he] at h100; norm_num at h100
    simp [clean_discount, ht, hu, hft, h0, h100]
  · intro it piic doc
    rfl

/-- Witness for C8: a not-applicable phrase gives the explicit zero, an
in-range result keeps magnitude ≤ 100, a 305 token is rejected, and the
pass-through holds on a concrete row. -/
theorem clean_discount_zero_and_bound_witness :
    clean_discount (some "해당사항없음") none none "" = .pct 0
    ∧ |(-25 : ℚ)| ≤ 100
    ∧ clean_discount (some "305페이지") none none "" = .unknown
    ∧ (build_row {} {} { discount_rate := some "-5.2%" }).discount
      = docGet { discount_rate := some "-5.2%" } .discount_rate := by
  have htok : discTok "-25" = some ⟨true, false, ['2', '5'], []⟩ := by decide
  have hv : tokVal ⟨true, false, ['2', '5'], []⟩ = -25 := by
    rw [tokVal_nofrac]
    norm_num [show digitsToNat ['2', '5'] = 25 from by decide]
  have heval : clean_discount (some "-25") none none "" = .pct (-25) := by
    rw [clean_discount_eval _ none none "" _ (by decide) (by decide) htok, hv]
    norm_num [show mathSign none none = 0 from rfl]
  have htok3 : discTok "305페이지" = some ⟨false, false, ['3', '0', '5'], []⟩ := by decide
  have hv3 : tokVal ⟨false, false, ['3', '0', '5'], []⟩ = 305 := by
    rw [tokVal_nofrac]
    norm_num [show digitsToNat ['3', '0', '5'] = 305 from by decide]
  exact ⟨clean_discount_zero_and_bound.2.1 "해당사항없음" none none "" (by decide),
    clean_discount_zero_and_bound.1 "-25" none none "" (-25) heval,
    clean_discount_zero_and_bound.2.2.2.1 "305페이지" none none ""
      ⟨false, false, ['3', '0', '5'], []⟩ (by decide) htok3 (by rw [hv3]; norm_num),
    clean_discount_zero_and_bound.2.2.2.2 {} {} { discount_rate := some "-5.2%" }⟩

/-- C5 (counterexample): the rate cell `"+5"` carries an explicit `+`
glyph and the row label `할증율` is premium-only, yet with issue price
9200 below reference price 10000 the code returns −5: the price
comparison — not the glyph — decides the sign first, contrary to the
claimed (a) glyph ≻ (b) price-comparison order. -/
theorem sign_priority_counterexample :
    clean_discount (some "+5") (some 9200) (some 10000) "할증율" = .pct (-5)
    ∧ discTok "+5" = some ⟨false, true, ['5'], []⟩
    ∧ (⟨false, true, ['5'], []⟩ : NumTok).pos = true
    ∧ premiumOnlyLabel "할증율" = true
    ∧ DiscRes.pct (-5) ≠ DiscRes.pct (tokVal ⟨false, true, ['5'], []⟩) := by
  have htok : discTok "+5" = some ⟨false, true, ['5'], []⟩ := by decide
  have hv : tokVal ⟨false, true, ['5'], []⟩ = 5 := by
    rw [tokVal_nofrac]
    norm_num [show digitsToNat ['5'] = 5 from by decide]
  have h1 : clean_discount (some "+5") (some 9200) (some 10000) "할증율" = .pct (-5) := by
    rw [clean_discount_eval _ _ _ _ _ (by decide) (by decide) htok, hv]
    norm_num [show mathSign (some 9200) (some 10000) = -1 from by decide]
  exact ⟨h1, htok, rfl, by decide, by rw [hv]; simp; norm_num⟩

/-- C5 (amended): `clean_discount` fixes the sign in the priority order
the code implements — (b) the issue/reference price comparison whenever it
is decisive, then (a) the explicit sign glyph on the token, then (c) the
label wording (premium-only label positive, anything else negative). -/
theorem clean_discount_sign_priority :
    ∀ t issue base header tok,
      startsWithAny discUndetermined (removeBy pyWs t) = false →
      discTok t = some tok →
      tokVal tok ≠ 0 → ¬(100 < |tokVal tok|) →
      ((mathSign issue base ≠ 0 →
        clean_discount (some t) issue base header
          = .pct (|tokVal tok| * (mathSign issue base : ℚ)))
      ∧ (mathSign issue base = 0 → tok.neg = true →
        clean_discount (some t) issue base header = .pct (tokVal tok))
      ∧ (mathSign issue base = 0 → tok.neg = false → tok.pos = true →
        clean_discount (some t) issue base header = .pct (tokVal tok))
      ∧ (mathSign issue base = 0 → tok.neg = false → tok.pos = false →
        premiumOnlyLabel header = true →
        clean_discount (some t) issue base header = .pct (tokVal tok))
      ∧ (mathSign issue base = 0 → tok.neg = false → tok.pos = false →
        premiumOnlyLabel header = false →
        clean_discount (some t) issue base header = .pct (-|tokVal tok|))) := by
  intro t issue base header tok hu htok h0 h100
  have ht : t ≠ "" := by
    intro he
    rw [he] at htok
    have hnone : discTok "" = none := rfl
    rw [hnone] at htok
    cases htok
  have hre := clean_discount_eval t issue base header tok ht hu htok
  rw [if_neg h0, if_neg h100] at hre
  refine ⟨?_, ?_, ?_, ?_, ?_⟩
  · intro hms
    rw [hre, if_pos hms]
  · intro hms hneg
    rw [hre, if_neg (not_not_intro hms), if_pos hneg]
  · intro hms hneg hpos
    rw [hre, if_neg (not_not_intro hms), if_neg (by simp [hneg]), if_pos hpos]
  · intro hms hneg hpos hlab
    rw [hre, if_neg (not_not_intro hms), if_neg (by simp [hneg]),
      if_neg (by simp [hpos]), if_pos hlab]
  · intro hms hneg hpos hlab
    rw [hre, if_neg (not_not_intro hms), if_neg (by simp [hneg]),
      if_neg (by simp [hpos]), if_neg (by simp [hlab])]

/-- Witness for C5: a bare `"5"` turns negative under a decisive price
comparison, and positive under the premium-only label once no price
decides. -/
theorem clean_discount_sign_priority_witness :
    clean_discount (some "5") (some 9200) (some 10000) "할증율" = .pct (-5)
    ∧ clean_discount (some "5") none none "할증율" = .pct 5 := by
  have htok : discTok "5" = some ⟨false, false, ['5'], []⟩ := by decide
  have hv : tokVal ⟨false, false, ['5'], []⟩ = 5 := by
    rw [tokVal_nofrac]
    norm_num [show digitsToNat ['5'] = 5 from by decide]
  have h0 : tokVal ⟨false, false, ['5'], []⟩ ≠ 0 := by rw [hv]; norm_num
  have h100 : ¬((100 : ℚ) < |tokVal ⟨false, false, ['5'], []⟩|) := by
    rw [hv]; norm_num
  constructor
  · have happ := (clean_discount_sign_priority "5" (some 9200) (some 10000)
      "할증율" _ (by decide) htok h0 h100).1 (by decide)
    rw [happ, hv]
    norm_num [show mathSign (some 9200) (some 10000) = -1 from by decide]
  · have happ := (clean_discount_sign_priority "5" none none
      "할증율" _ (by decide) htok h0 h100).2.2.2.1 rfl rfl rfl (by decide)
    rw [happ, hv]

/-- C6 (counterexample): the discount field maps a leading undetermined
phrase (`미정`) to the explicit **zero** rate `"0.00%"`, not to the
unknown marker `'-'` the claim requires for every field. -/
theorem undetermined_unknown_counterexample :
    clean_discount (some "미정") none none "" = .pct 0
    ∧ DiscRes.pct 0 ≠ DiscRes.unknown
    ∧ startsWithAny discUndetermined (removeBy pyWs "미정") = true := by
  refine ⟨?_, by simp, by decide⟩
  have ht : ("미정" : String) ≠ "" := by decide
  simp [clean_discount, ht,
    show startsWithAny discUndetermined (removeBy pyWs "미정") = true from by decide]

/-- C6 (amended): a candidate whose cleaned text begins with a recognized
undetermined/not-applicable phrase never contributes a nearby number —
the price and date cleaners return the unknown marker, while the discount
cleaner returns the explicit zero rate instead. -/
theorem undetermined_phrase_behaviour :
    (∀ t, startsWithAny undeterminedMarks (stripPriceJunk t) = true →
      clean_price (some t) = none)
    ∧ (∀ t, startsWithAny undeterminedMarks (removeBy pyWs t) = true →
      clean_date (some t) = none)
    ∧ (∀ t issue base header,
      startsWithAny discUndetermined (removeBy pyWs t) = true →
      clean_discount (some t) issue base header = .pct 0) := by
  refine ⟨?_, ?_, ?_⟩
  · intro t hu
    by_cases ht : t = ""
    · subst ht; simp [clean_price]
    · simp [clean_price, ht, hu]
  · intro t hu
    by_cases ht : t = ""
    · subst ht; simp [clean_date]
    · simp [clean_date, ht, hu]
  · intro t issue base header hu
    have ht : t ≠ "" := by
      intro he
      rw [he] at hu
      exact absurd hu (by decide)
    simp [clean_discount, ht, hu]

/-- Witness for C6: an undetermined phrase followed by a number yields
unknown for the price, unknown for the date, and explicit zero for the
rate — never the trailing number. -/
theorem undetermined_phrase_behaviour_witness :
    clean_price (some "미정 (예정가 9,500원)") = none
    ∧ clean_date (some "미정(2026.01.02)") = none
    ∧ clean_discount (some "해당없음 15") none none "" = .pct 0 :=
  ⟨undetermined_phrase_behaviour.1 "미정 (예정가 9,500원)" (by decide),
   undetermined_phrase_behaviour.2.1 "미정(2026.01.02)" (by decide),
   undetermined_phrase_behaviour.2.2 "해당없음 15" none none "" (by decide)⟩

/-! ## Reconciliation lemmas -/

/-- Closed form of the yusang write loop. -/
lemma yusangWrites_aux (existing : List String) :
    ∀ (recs : List (String × SheetRow)) (acc : List (Nat × SheetRow) × List SheetRow),
      recs.foldl (yusangStep existing) acc
        = (acc.1 ++ recs.filterMap (fun r =>
            if existing.contains r.1 then some (existing.indexOf r.1 + 1, r.2) else none),
           acc.2 ++ recs.filterMap (fun r =>
            if existing.contains r.1 then none else some r.2)) := by
  intro recs
  induction recs with
  | nil => intro acc; simp
  | cons r rs ih =>
    intro acc
    rw [List.foldl_cons, ih, List.filterMap_cons, List.filterMap_cons]
    by_cases hc : existing.contains r.1
    · have hm : r.1 ∈ existing := List.elem_iff.mp hc
      simp [yusangStep, hc, hm]
    · have hm : r.1 ∉ existing := fun hmm => hc (List.elem_iff.mpr hmm)
      simp [yusangStep, hc, hm]

/-- `yusangWrites` as a pair of filter-maps over the records. -/
lemma yusangWrites_eq (existing : List String) (recs : List (String × SheetRow)) :
    yusangWrites existing recs
      = (recs.filterMap (fun r =>
          if existing.contains r.1 then some (existing.indexOf r.1 + 1, r.2) else none),
         recs.filterMap (fun r =>
          if existing.contains r.1 then none else some r.2)) := by
  unfold yusangWrites
  rw [yusangWrites_aux]
  simp

/-- A `contains = false` verdict is non-membership. -/
lemma contains_false_not_mem {l : List String} {a : String}
    (h : l.contains a = false) : a ∉ l := by
  intro hm
  have h2 : l.contains a = true := List.elem_iff.mpr hm
  rw [h] at h2
  cases h2

/-- A successful dict lookup comes from a binding in the list. -/
lemma lookupLast_mem {m : List (String × Nat)} {k : String} {idx : Nat}
    (h : lookupLast m k = some idx) : ∃ e ∈ m, e.1 = k ∧ e.2 = idx := by
  unfold lookupLast at h
  rw [Option.map_eq_some'] at h
  obtain ⟨e, he, he2⟩ := h
  refine ⟨e, List.mem_reverse.mp (List.mem_of_find?_eq_some he), ?_, he2⟩
  have := List.find?_some he
  simpa using this

/-- A successful dict lookup means the key is among the dict's keys. -/
lemma lookupLast_keys {m : List (String × Nat)} {k : String} {idx : Nat}
    (h : lookupLast m k = some idx) : (m.map (fun e => e.1)).contains k = true := by
  obtain ⟨e, hem, hek, _⟩ := lookupLast_mem h
  have : k ∈ m.map (fun e => e.1) := List.mem_map.mpr ⟨e, hem, hek⟩
  exact List.elem_iff.mpr this

/-- Every binding of `rcept_row_map` points at a real sheet row. -/
lemma rceptRowMap_mem {sheet : List SheetRow} {e : String × Nat}
    (h : e ∈ rceptRowMap sheet) : 1 ≤ e.2 ∧ e.2 - 1 < sheet.length := by
  unfold rceptRowMap at h
  rw [List.mem_filterMap] at h
  obtain ⟨i, hi, hfi⟩ := h
  rw [List.mem_range] at hi
  by_cases h24 : 24 < (sheet.getD i []).length
  · rw [if_pos h24] at hfi
    cases hfi
    omega
  · rw [if_neg h24] at hfi
    cases hfi

/-- A looked-up row index is in range. -/
lemma lookupLast_bound {sheet : List SheetRow} {k : String} {idx : Nat}
    (h : lookupLast (rceptRowMap sheet) k = some idx) :
    1 ≤ idx ∧ idx - 1 < sheet.length := by
  obtain ⟨e, hem, _, he2⟩ := lookupLast_mem h
  have hb := rceptRowMap_mem hem
  omega

/-- The update decision once the stored row's position is known. -/
lemma bondsUpdateFor_eq (sheet : List SheetRow) (k : String) (row : SheetRow)
    (idx : Nat) (h : lookupLast (rceptRowMap sheet) k = some idx) :
    bondsUpdateFor sheet (k, row)
      = if needsUpdate (sheet.getD (idx - 1) [])
            && decide (row.take (sheet.getD (idx - 1) []).length
              ≠ (sheet.getD (idx - 1) []).take row.length)
        then some (idx, row) else none := by
  unfold bondsUpdateFor
  simp only [h]

/-- `bondsWrites` on a single record with a known receipt number. -/
lemma bondsWrites_single_existing (sheet : List SheetRow) (k : String)
    (row : SheetRow) (idx : Nat)
    (h : lookupLast (rceptRowMap sheet) k = some idx) :
    bondsWrites sheet [(k, row)]
      = ([], (bondsUpdateFor sheet (k, row)).toList) := by
  have hc := lookupLast_keys h
  unfold bondsWrites
  simp only [List.filter_cons, List.filter_nil, hc, Bool.not_true, if_false, if_true,
    List.map_nil, List.filterMap_cons, List.filterMap_nil]
  rcases hb : bondsUpdateFor sheet (k, row) with _ | u <;> simp [hb]

/-- `bondsWrites` on a single record with an unseen receipt number. -/
lemma bondsWrites_single_new (sheet : List SheetRow) (k : String) (row : SheetRow)
    (hc : ((rceptRowMap sheet).map (fun e => e.1)).contains k = false) :
    bondsWrites sheet [(k, row)] = ([row], []) := by
  unfold bondsWrites
  simp only [List.filter_cons, List.filter_nil, hc, Bool.not_false, if_true,
    Bool.false_eq_true, if_false, List.map_cons, List.map_nil, List.filterMap_nil]

/-- C1 (counterexample): a freshly computed rights-issue row identical to
the stored one — the spec's reconciliation says SKIP — still triggers a
`worksheet.update` call: `get_and_update_yusang` overwrites every present
key unconditionally, never comparing fields. -/
theorem reconcile_skip_counterexample :
    specReconcileDecision (some ["NewCo", "20990101000111"])
        ["NewCo", "20990101000111"] = .SKIP
    ∧ yusangWrites ["20990101000111"]
        [("20990101000111", ["NewCo", "20990101000111"])]
      = ([(1, ["NewCo", "20990101000111"])], []) := by
  constructor
  · decide
  · decide

/-- C1 (amended): both pipelines APPEND exactly when the receipt number is
absent.  For present keys the bond pipeline overwrites exactly when a
monitored cell is blank and the two rows differ on their truncated
overlap — so an identical or all-monitored-fields-filled recomputation is
skipped — while the rights-issue pipeline overwrites unconditionally,
identical rows included. -/
theorem reconcile_decision_behaviour :
    (∀ existing k row, existing.contains k = false →
      yusangWrites existing [(k, row)] = ([], [row]))
    ∧ (∀ existing k row, existing.contains k = true →
      yusangWrites existing [(k, row)] = ([(existing.indexOf k + 1, row)], []))
    ∧ (∀ sheet k row,
      ((rceptRowMap sheet).map (fun e => e.1)).contains k = false →
      bondsWrites sheet [(k, row)] = ([row], []))
    ∧ (∀ sheet k row idx,
      lookupLast (rceptRowMap sheet) k = some idx →
      needsUpdate (sheet.getD (idx - 1) []) = true →
      row.take (sheet.getD (idx - 1) []).length
        ≠ (sheet.getD (idx - 1) []).take row.length →
      bondsWrites sheet [(k, row)] = ([], [(idx, row)]))
    ∧ (∀ sheet k row idx,
      lookupLast (rceptRowMap sheet) k = some idx →
      needsUpdate (sheet.getD (idx - 1) []) = false →
      bondsWrites sheet [(k, row)] = ([], []))
    ∧ (∀ sheet k row idx,
      lookupLast (rceptRowMap sheet) k = some idx →
      row.take (sheet.getD (idx - 1) []).length
        = (sheet.getD (idx - 1) []).take row.length →
      bondsWrites sheet [(k, row)] = ([], [])) := by
  refine ⟨?_, ?_, ?_, ?_, ?_, ?_⟩
  · intro existing k row hc
    simp [yusangWrites_eq, contains_false_not_mem hc]
  · intro existing k row hc
    simp [yusangWrites_eq, List.elem_iff.mp hc]
  · intro sheet k row hc
    exact bondsWrites_single_new sheet k row hc
  · intro sheet k row idx h hnu hne
    rw [bondsWrites_single_existing sheet k row idx h,
      bondsUpdateFor_eq sheet k row idx h]
    have hcond : (needsUpdate (sheet.getD (idx - 1) [])
        && decide (row.take (sheet.getD (idx - 1) []).length
          ≠ (sheet.getD (idx - 1) []).take row.length)) = true := by
      rw [hnu, decide_eq_true hne]
      rfl
    rw [if_pos hcond]
    rfl
  · intro sheet k row idx h hnu
    rw [bondsWrites_single_existing sheet k row idx h,
      bondsUpdateFor_eq sheet k row idx h]
    have hcond : (needsUpdate (sheet.getD (idx - 1) [])
        && decide (row.take (sheet.getD (idx - 1) []).length
          ≠ (sheet.getD (idx - 1) []).take row.length)) = false := by
      rw [hnu]
      exact Bool.false_and _
    rw [if_neg (by rw [hcond]; exact Bool.false_ne_true)]
    rfl
  · intro sheet k row idx h heq
    rw [bondsWrites_single_existing sheet k row idx h,
      bondsUpdateFor_eq sheet k row idx h]
    have hcond : (needsUpdate (sheet.getD (idx - 1) [])
        && decide (row.take (sheet.getD (idx - 1) []).length
          ≠ (sheet.getD (idx - 1) []).take row.length)) = false := by
      rw [decide_eq_false (fun hne => hne heq)]
      exact Bool.and_false _
    rw [if_neg (by rw [hcond]; exact Bool.false_ne_true)]
    rfl

/-- Witness for C1: an absent key appends, a present key overwrites in
the rights-issue pipeline, an unseen bond row appends, a blank monitored
cell with a differing recomputation overwrites, and the unchanged bond
row writes nothing. -/
theorem reconcile_decision_behaviour_witness :
    yusangWrites ["20240202000200"] [("20240101000100", [["Co"], ["X"]].flatten)]
      = ([], [["Co", "X"]])
    ∧ yusangWrites ["20240101000100"] [("20240101000100", ["Co", "X"])]
      = ([(1, ["Co", "X"])], [])
    ∧ bondsWrites
        [["a", "b", "c", "d", "e", "f", "g", "h", "i", "j", "X", "l", "m", "n", "o",
          "p", "q", "r", "s", "t", "u", "v", "w", "x", "R1"]]
        [("R2", ["fresh"])] = ([["fresh"]], [])
    ∧ bondsWrites
        [["a", "b", "c", "d", "e", "f", "g", "h", "i", "j", "X", "l", "m", "n", "o",
          "p", "q", "r", "s", "t", "u", "v", "w", "x", "R1"]]
        [("R1", ["a", "b", "c", "d", "e", "f", "g", "h", "i", "j", "PUT", "l", "m",
          "n", "o", "p", "q", "r", "s", "t", "u", "v", "w", "x", "R1"])]
      = ([], [(1, ["a", "b", "c", "d", "e", "f", "g", "h", "i", "j", "PUT", "l", "m",
          "n", "o", "p", "q", "r", "s", "t", "u", "v", "w", "x", "R1"])])
    ∧ bondsWrites
        [["a", "b", "c", "d", "e", "f", "g", "h", "i", "j", "X", "l", "m", "n", "o",
          "p", "q", "r", "s", "t", "u", "v", "w", "x", "R1"]]
        [("R1", ["a", "b", "c", "d", "e", "f", "g", "h", "i", "j", "X", "l", "m",
          "n", "o", "p", "q", "r", "s", "t", "u", "v", "w", "x", "R1"])]
      = ([], []) :=
  ⟨reconcile_decision_behaviour.1 ["20240202000200"] "20240101000100"
      ["Co", "X"] (by decide),
   reconcile_decision_behaviour.2.1 ["20240101000100"] "20240101000100"
      ["Co", "X"] (by decide),
   reconcile_decision_behaviour.2.2.1 _ "R2" ["fresh"] (by decide),
   reconcile_decision_behaviour.2.2.2.1 _ "R1" _ 1 (by decide) (by decide) (by decide),
   reconcile_decision_behaviour.2.2.2.2.2 _ "R1" _ 1 (by decide) (by decide)⟩

/-- C3 (counterexample): a second run over an unchanged store — the key
already stored, the recomputed row byte-identical — still issues an
overwrite write in the rights-issue pipeline, so the run is not
write-free. -/
theorem second_run_overwrite_counterexample :
    (yusangWrites ["20230105000321"]
        [("20230105000321", ["OldCo", "20230105000321"])]).1
      = [(1, ["OldCo", "20230105000321"])]
    ∧ [(1, ["OldCo", "20230105000321"])] ≠ ([] : List (Nat × SheetRow)) := by
  constructor
  · decide
  · decide

/-- C3 (amended): a second run on an unchanged filing set appends nothing
anywhere — src/main.py filters out every already-stored receipt number,
and the bond pipeline also issues no overwrite when the recomputed row
equals the stored one — but the rights-issue pipeline issues one
overwrite write per present filing on every run. -/
theorem second_run_behaviour :
    (∀ processed piicF docF candidates,
      (∀ it ∈ candidates, processed.contains (clean_str it.rcept_no) = true) →
      mainRun processed piicF docF candidates = .ok [])
    ∧ (∀ existing recs, (∀ r ∈ recs, existing.contains r.1 = true) →
      (yusangWrites existing recs).2 = []
      ∧ ((yusangWrites existing recs).1).length = recs.length)
    ∧ (∀ sheet k idx, lookupLast (rceptRowMap sheet) k = some idx →
      bondsWrites sheet [(k, sheet.getD (idx - 1) [])] = ([], [])) := by
  refine ⟨?_, ?_, ?_⟩
  · intro processed piicF docF candidates hall
    unfold mainRun
    have hf : candidates.filter
        (fun it => !(processed.contains (clean_str it.rcept_no))) = [] := by
      rw [List.filter_eq_nil_iff]
      intro it hit
      simp [List.elem_iff.mp (hall it hit)]
    rw [hf]
    rfl
  · intro existing recs hall
    rw [yusangWrites_eq]
    constructor
    · rw [List.filterMap_eq_nil_iff]
      intro r hr
      simp [List.elem_iff.mp (hall r hr)]
    · induction recs with
      | nil => rfl
      | cons r rs ih =>
        rw [List.filterMap_cons]
        rw [if_pos (hall r (by simp)), List.length_cons, List.length_cons,
          ih (fun x hx => hall x (by simp [hx]))]
  · intro sheet k idx h
    rw [bondsWrites_single_existing sheet k _ idx h,
      bondsUpdateFor_eq sheet k _ idx h]
    simp

/-- Witness for C3: one already-processed candidate yields an empty
append set in main, a fully-stored record list yields one overwrite and
no append in the rights-issue pipeline, and the unchanged bond row is
written nowhere. -/
theorem second_run_behaviour_witness :
    mainRun ["20230105000321"] (fun _ => .ok {}) (fun _ => .ok {})
        [{ rcept_no := some "20230105000321" }] = .ok []
    ∧ (yusangWrites ["20230105000321"] [("20230105000321", ["r"])]).2 = []
    ∧ ((yusangWrites ["20230105000321"] [("20230105000321", ["r"])]).1).length = 1
    ∧ bondsWrites
        [["a", "b", "c", "d", "e", "f", "g", "h", "i", "j", "X", "l", "m", "n", "o",
          "p", "q", "r", "s", "t", "u", "v", "w", "x", "R7"]]
        [("R7", [["a", "b", "c", "d", "e", "f", "g", "h", "i", "j", "X", "l", "m",
          "n", "o", "p", "q", "r", "s", "t", "u", "v", "w", "x", "R7"]].getD 0 [])]
      = ([], []) := by
  have h2 := second_run_behaviour.2.1 ["20230105000321"] [("20230105000321", ["r"])]
    (by decide)
  exact ⟨second_run_behaviour.1 ["20230105000321"] (fun _ => .ok {}) (fun _ => .ok {})
      [{ rcept_no := some "20230105000321" }] (by decide),
    h2.1, h2.2,
    second_run_behaviour.2.2 _ "R7" 1 (by decide)⟩

/-- C4 (counterexample): healing a bond row with a blank call-ratio cell
(index 12) overwrites the **whole** row with the fresh computation; here
the previously validated put-option cell (index 10, `"풋옵션 30%"`, not a
blank marker) regresses to the unknown marker `"X"` because the fresh
extraction lost it. -/
theorem healing_regression_counterexample :
    bondsWrites
        [["a", "b", "c", "d", "e", "f", "g", "h", "i", "j", "풋옵션 30%", "l", "X",
          "n", "o", "p", "q", "r", "s", "t", "u", "v", "w", "x", "R9"]]
        [("R9", ["a", "b", "c", "d", "e", "f", "g", "h", "i", "j", "X", "l", "30%",
          "n", "o", "p", "q", "r", "s", "t", "u", "v", "w", "x", "R9"])]
      = ([], [(1, ["a", "b", "c", "d", "e", "f", "g", "h", "i", "j", "X", "l", "30%",
          "n", "o", "p", "q", "r", "s", "t", "u", "v", "w", "x", "R9"])])
    ∧ blankMarkers.contains "풋옵션 30%" = false
    ∧ ((applyUpdate
        [["a", "b", "c", "d", "e", "f", "g", "h", "i", "j", "풋옵션 30%", "l", "X",
          "n", "o", "p", "q", "r", "s", "t", "u", "v", "w", "x", "R9"]]
        (1, ["a", "b", "c", "d", "e", "f", "g", "h", "i", "j", "X", "l", "30%",
          "n", "o", "p", "q", "r", "s", "t", "u", "v", "w", "x", "R9"])).getD 0 []).getD
        10 "" = "X"
    ∧ blankMarkers.contains "X" = true := by
  refine ⟨by decide, by decide, by decide, by decide⟩

/-- C4 (amended): a stored bond row with a blank monitored field is
overwritten by the differing fresh computation, so its blank fields take
the fresh values — but the overwrite replaces the entire row (and the
rights-issue pipeline rewrites every present row wholesale), so an
already-validated field is **not** protected: it becomes whatever the
fresh extraction produced, including the unknown marker. -/
theorem healing_overwrite_behaviour :
    (∀ sheet k row idx,
      lookupLast (rceptRowMap sheet) k = some idx →
      needsUpdate (sheet.getD (idx - 1) []) = true →
      row.take (sheet.getD (idx - 1) []).length
        ≠ (sheet.getD (idx - 1) []).take row.length →
      (bondsWrites sheet [(k, row)]).2 = [(idx, row)]
      ∧ (applyUpdate sheet (idx, row)).getD (idx - 1) [] = row)
    ∧ (∀ existing k row, existing.contains k = true →
      yusangWrites existing [(k, row)] = ([(existing.indexOf k + 1, row)], [])) := by
  constructor
  · intro sheet k row idx h hnu hne
    constructor
    · rw [bondsWrites_single_existing sheet k row idx h,
        bondsUpdateFor_eq sheet k row idx h]
      have hcond : (needsUpdate (sheet.getD (idx - 1) [])
          && decide (row.take (sheet.getD (idx - 1) []).length
            ≠ (sheet.getD (idx - 1) []).take row.length)) = true := by
        rw [hnu, decide_eq_true hne]
        rfl
      rw [if_pos hcond]
      rfl
    · have hlt : idx - 1 < sheet.length := (lookupLast_bound h).2
      unfold applyUpdate
      rw [List.getD_eq_getElem?_getD, List.getElem?_set_self']
      simp [List.getElem?_eq_getElem, hlt]
  · intro existing k row hc
    simp [yusangWrites_eq, List.elem_iff.mp hc]

/-- Witness for C4: the blank-put-option row is overwritten by the fresh
row and the store then holds exactly the fresh row; the rights-issue
pipeline overwrites its stored row unconditionally. -/
theorem healing_overwrite_behaviour_witness :
    ((bondsWrites
        [["a", "b", "c", "d", "e", "f", "g", "h", "i", "j", "X", "l", "m", "n", "o",
          "p", "q", "r", "s", "t", "u", "v", "w", "x", "R4"]]
        [("R4", ["a", "b", "c", "d", "e", "f", "g", "h", "i", "j", "풋조항", "l",
          "m", "n", "o", "p", "q", "r", "s", "t", "u", "v", "w", "x", "R4"])]).2
      = [(1, ["a", "b", "c", "d", "e", "f", "g", "h", "i", "j", "풋조항", "l", "m",
          "n", "o", "p", "q", "r", "s", "t", "u", "v", "w", "x", "R4"])]
    ∧ (applyUpdate
        [["a", "b", "c", "d", "e", "f", "g", "h", "i", "j", "X", "l", "m", "n", "o",
          "p", "q", "r", "s", "t", "u", "v", "w", "x", "R4"]]
        (1, ["a", "b", "c", "d", "e", "f", "g", "h", "i", "j", "풋조항", "l", "m",
          "n", "o", "p", "q", "r", "s", "t", "u", "v", "w", "x", "R4"])).getD 0 []
      = ["a", "b", "c", "d", "e", "f", "g", "h", "i", "j", "풋조항", "l", "m", "n",
          "o", "p", "q", "r", "s", "t", "u", "v", "w", "x", "R4"])
    ∧ yusangWrites ["20220202000222"] [("20220202000222", ["fresh", "row"])]
      = ([(1, ["fresh", "row"])], []) :=
  ⟨healing_overwrite_behaviour.1 _ "R4" _ 1 (by decide) (by decide) (by decide),
   healing_overwrite_behaviour.2 ["20220202000222"] "20220202000222"
     ["fresh", "row"] (by decide)⟩

/-! ## Per-filing loop lemmas -/

lemma processItem_ok (piicF : Item → Except String Piic)
    (docF : Item → Except String DocFields) (it : Item) (piic : Piic)
    (hp : itemPiic piicF it = .ok piic) :
    processItem piicF docF it = .ok (build_row it piic (docOr docF it)) := by
  unfold processItem
  rw [hp]
  rfl

lemma processItem_error (piicF : Item → Except String Piic)
    (docF : Item → Except String DocFields) (it : Item) (e : String)
    (hp : itemPiic piicF it = .error e) :
    processItem piicF docF it = .error e := by
  unfold processItem
  rw [hp]
  rfl

lemma docOr_error (docF : Item → Except String DocFields) (it : Item) (e : String)
    (hd : docF it = .error e) : docOr docF it = {} := by
  unfold docOr
  rw [hd]

lemma mainStep_ok (piicF : Item → Except String Piic)
    (docF : Item → Except String DocFields) (acc : List MainRow) (it : Item)
    (piic : Piic) (hp : itemPiic piicF it = .ok piic) :
    mainStep piicF docF acc it = .ok (acc ++ [build_row it piic (docOr docF it)]) := by
  unfold mainStep
  rw [processItem_ok piicF docF it piic hp]
  rfl

lemma mainStep_error (piicF : Item → Except String Piic)
    (docF : Item → Except String DocFields) (acc : List MainRow) (it : Item)
    (e : String) (hp : itemPiic piicF it = .error e) :
    mainStep piicF docF acc it = .error e := by
  unfold mainStep
  rw [processItem_error piicF docF it e hp]
  rfl

/-- When every detail call answers, the loop finishes and yields one row
per filing — whatever the document fetches do. -/
lemma mainRows_aux_ok (piicF : Item → Except String Piic)
    (docF : Item → Except String DocFields) :
    ∀ (items : List Item) (acc : List MainRow),
      (∀ it ∈ items, ∃ p, itemPiic piicF it = .ok p) →
      ∃ rows, items.foldlM (mainStep piicF docF) acc = .ok rows
        ∧ rows.length = acc.length + items.length := by
  intro items
  induction items with
  | nil =>
    intro acc _
    exact ⟨acc, rfl, by simp⟩
  | cons it its ih =>
    intro acc hall
    obtain ⟨p, hp⟩ := hall it (by simp)
    obtain ⟨rows, hr, hl⟩ := ih (acc ++ [build_row it p (docOr docF it)])
      (fun x hx => hall x (by simp [hx]))
    refine ⟨rows, ?_, ?_⟩
    · rw [List.foldlM_cons, mainStep_ok piicF docF acc it p hp]
      exact hr
    · rw [hl]
      simp
      omega

/-- A detail-endpoint failure at any position aborts the whole loop. -/
lemma mainRows_aux_error (piicF : Item → Except String Piic)
    (docF : Item → Except String DocFields) (e : String) :
    ∀ (pre : List Item) (acc : List MainRow) (it : Item) (post : List Item),
      (∀ j ∈ pre, ∃ p, itemPiic piicF j = .ok p) →
      itemPiic piicF it = .error e →
      (pre ++ it :: post).foldlM (mainStep piicF docF) acc = .error e := by
  intro pre
  induction pre with
  | nil =>
    intro acc it post _ herr
    rw [List.nil_append, List.foldlM_cons, mainStep_error piicF docF acc it e herr]
    rfl
  | cons j pre ih =>
    intro acc it post hall herr
    obtain ⟨p, hp⟩ := hall j (by simp)
    rw [List.cons_append, List.foldlM_cons, mainStep_ok piicF docF acc j p hp]
    exact ih _ it post (fun x hx => hall x (by simp [hx])) herr

/-- C2 (counterexample): the Document Retriever fails for the filing, yet
the filing still produces a row this run — its receipt number is in the
appended set, with the extracted fields blank — instead of being deferred. -/
theorem doc_failure_persisted_counterexample :
    (mainRows (fun _ => .ok {}) (fun _ => .error "network down")
        [{ rcept_no := some "20240101000001", corp_code := some "C1",
           rcept_dt := some "20240101" }]).map
      (fun rows => rows.map (fun r => r.rcept_no))
      = .ok ["20240101000001"]
    ∧ (mainRows (fun _ => .ok {}) (fun _ => .error "network down")
        [{ rcept_no := some "20240101000001", corp_code := some "C1",
           rcept_dt := some "20240101" }]).map
      (fun rows => rows.map (fun r => r.board_date))
      = .ok [""] := by
  constructor
  · rfl
  · rfl

/-- C2 (amended): when the document archive cannot be fetched or parsed,
every extracted field is indeed returned as the unknown marker (the
rights-issue extractor returns its all-unknown default record, main.py
falls back to the empty dict whose every lookup is blank) — but the
filing is **not** deferred: main.py still builds its row from the typed
facts and appends it, with all document-derived columns blank. -/
theorem extraction_failure_behaviour :
    (∀ e, extract_xml_details (.error e) = ({} : RIExtracted))
    ∧ (({} : RIExtracted).board_date = "-" ∧ ({} : RIExtracted).issue_price = "-"
      ∧ ({} : RIExtracted).base_price = "-" ∧ ({} : RIExtracted).discount = "-"
      ∧ ({} : RIExtracted).pay_date = "-" ∧ ({} : RIExtracted).div_date = "-"
      ∧ ({} : RIExtracted).list_date = "-" ∧ ({} : RIExtracted).investor = "원문참조")
    ∧ (∀ piicF docF it piic e,
      itemPiic piicF it = .ok piic → docF it = .error e →
      mainRows piicF docF [it] = .ok [build_row it piic ({} : DocFields)])
    ∧ (∀ it piic,
      (build_row it piic ({} : DocFields)).board_date = ""
      ∧ (build_row it piic ({} : DocFields)).subscription_date = ""
      ∧ (build_row it piic ({} : DocFields)).payment_date = ""
      ∧ (build_row it piic ({} : DocFields)).underwriter = ""
      ∧ (build_row it piic ({} : DocFields)).investor = ""
      ∧ (build_row it piic ({} : DocFields)).issue_price_col = ""
      ∧ (build_row it piic ({} : DocFields)).base_price_col = ""
      ∧ (build_row it piic ({} : DocFields)).discount = "") := by
  refine ⟨fun e => rfl, ⟨rfl, rfl, rfl, rfl, rfl, rfl, rfl, rfl⟩, ?_, ?_⟩
  · intro piicF docF it piic e hp hd
    unfold mainRows
    rw [List.foldlM_cons, mainStep_ok piicF docF [] it piic hp, docOr_error docF it e hd]
    rfl
  · intro it piic
    exact ⟨rfl, rfl, rfl, rfl, rfl, rfl, rfl, rfl⟩

/-- Witness for C2: concrete filing, failing document fetch — the run
returns exactly the one row built from the empty document dict. -/
theorem extraction_failure_behaviour_witness :
    extract_xml_details (.error "HTTP timeout") = ({} : RIExtracted)
    ∧ mainRows (fun _ => .ok { corp_name := some "NewCo" })
        (fun _ => .error "bad zip")
        [{ rcept_no := some "20240505000005", corp_code := some "C9",
           rcept_dt := some "20240505" }]
      = .ok [build_row
          { rcept_no := some "20240505000005", corp_code := some "C9",
            rcept_dt := some "20240505" }
          { corp_name := some "NewCo" } ({} : DocFields)]
    ∧ (build_row
          { rcept_no := some "20240505000005", corp_code := some "C9",
            rcept_dt := some "20240505" }
          { corp_name := some "NewCo" } ({} : DocFields)).discount = "" :=
  ⟨extraction_failure_behaviour.1 "HTTP timeout",
   extraction_failure_behaviour.2.2.1 (fun _ => .ok { corp_name := some "NewCo" })
     (fun _ => .error "bad zip")
     { rcept_no := some "20240505000005", corp_code := some "C9",
       rcept_dt := some "20240505" }
     { corp_name := some "NewCo" } "bad zip" rfl rfl,
   (extraction_failure_behaviour.2.2.2
     { rcept_no := some "20240505000005", corp_code := some "C9",
       rcept_dt := some "20240505" }
     { corp_name := some "NewCo" }).2.2.2.2.2.2.2⟩

/-- C9 (counterexample): a detail-endpoint failure for the first filing
aborts the whole run — the second filing, which would have processed
fine, is never reached — so a single filing's failure does abort the
rest, contrary to the claim. -/
theorem detail_failure_aborts_counterexample :
    mainRows
        (fun it => if clean_str it.rcept_no = "A1" then .error "HTTP 500" else .ok {})
        (fun _ => .ok {})
        [{ rcept_no := some "A1", corp_code := some "c", rcept_dt := some "d" },
         { rcept_no := some "A2", corp_code := some "c", rcept_dt := some "d" }]
      = .error "HTTP 500"
    ∧ (mainRows
        (fun it => if clean_str it.rcept_no = "A1" then .error "HTTP 500" else .ok {})
        (fun _ => .ok {})
        [{ rcept_no := some "A2", corp_code := some "c", rcept_dt := some "d" }]).map
        (fun rows => rows.length)
      = .ok 1 := by
  constructor
  · rfl
  · rfl

/-- C9 (amended): document fetch/extraction failures are recovered
locally — with every detail call answering, the loop completes and yields
one row per filing no matter what the document fetches do — but a
detail-endpoint failure inside the per-filing loop is unguarded and
aborts the run, skipping every remaining filing; it is not only startup
configuration failures that terminate a run. -/
theorem per_filing_failure_behaviour :
    (∀ piicF docF items,
      (∀ it ∈ items, ∃ p, itemPiic piicF it = .ok p) →
      ∃ rows, mainRows piicF docF items = .ok rows ∧ rows.length = items.length)
    ∧ (∀ piicF docF pre it post e,
      (∀ j ∈ pre, ∃ p, itemPiic piicF j = .ok p) →
      itemPiic piicF it = .error e →
      mainRows piicF docF (pre ++ it :: post) = .error e) := by
  constructor
  · intro piicF docF items hall
    obtain ⟨rows, hr, hl⟩ := mainRows_aux_ok piicF docF items [] hall
    exact ⟨rows, hr, by simpa using hl⟩
  · intro piicF docF pre it post e hall herr
    exact mainRows_aux_error piicF docF e pre [] it post hall herr

/-- Witness for C9: two filings and an always-failing document fetch
still give two rows; a detail failure on the first filing kills the run. -/
theorem per_filing_failure_behaviour_witness :
    (∃ rows, mainRows (fun _ => .ok {}) (fun _ => .error "doc down")
        [{ rcept_no := some "B1", corp_code := some "c", rcept_dt := some "d" },
         { rcept_no := some "B2", corp_code := some "c", rcept_dt := some "d" }]
      = .ok rows ∧ rows.length = 2)
    ∧ mainRows
        (fun it => if clean_str it.rcept_no = "B1" then .error "HTTP 502" else .ok {})
        (fun _ => .ok {})
        [{ rcept_no := some "B1", corp_code := some "c", rcept_dt := some "d" },
         { rcept_no := some "B2", corp_code := some "c", rcept_dt := some "d" }]
      = .error "HTTP 502" :=
  ⟨per_filing_failure_behaviour.1 (fun _ => .ok {}) (fun _ => .error "doc down")
      [{ rcept_no := some "B1", corp_code := some "c", rcept_dt := some "d" },
       { rcept_no := some "B2", corp_code := some "c", rcept_dt := some "d" }]
      (by intro it hit
          refine ⟨{}, ?_⟩
          fin_cases hit <;> rfl),
   per_filing_failure_behaviour.2
      (fun it => if clean_str it.rcept_no = "B1" then .error "HTTP 502" else .ok {})
      (fun _ => .ok {}) []
      { rcept_no := some "B1", corp_code := some "c", rcept_dt := some "d" }
      [{ rcept_no := some "B2", corp_code := some "c", rcept_dt := some "d" }]
      "HTTP 502" (by intro j hj; cases hj) rfl⟩

/-! ## Structural-tier lemmas (claim C7) -/

lemma DocFields.get_set (d : DocFields) (k f : MField) (v : String) :
    (d.set k v).get f = if f = k then some v else d.get f := by
  cases k <;> cases f <;> simp [DocFields.get, DocFields.set]

lemma firstLabelMatch_some {o : DocFields} {cell : String} {kv : MField × List String}
    (h : firstLabelMatch o cell = some kv) :
    kv ∈ LABELS ∧ (o.get kv.1).isNone = true
      ∧ kv.2.any (fun p => strContains cell p) = true := by
  unfold firstLabelMatch at h
  have hp := List.find?_some h
  have hm := List.mem_of_find?_eq_some h
  rw [Bool.and_eq_true] at hp
  exact ⟨hm, hp.1, hp.2⟩

/-- A cell never erases an already-found candidate (first match wins). -/
lemma cellStep_mono (rv : List String) (o : DocFields) (j : Nat) {f : MField}
    {v : String} (h : o.get f = some v) : (cellStep rv o j).get f = some v := by
  unfold cellStep
  by_cases hc : rv.getD j "" = ""
  · rw [if_pos hc]
    exact h
  · rw [if_neg hc]
    rcases hm : firstLabelMatch o (rv.getD j "") with _ | kv
    · simp only [hm]
      exact h
    · simp only [hm]
      rcases hcand : cellCandidate rv j with _ | w
      · exact h
      · dsimp only
        by_cases hw : w = ""
        · rw [if_pos hw]
          exact h
        · rw [if_neg hw, DocFields.get_set]
          rw [if_neg]
          · exact h
          · intro he
            have hnone := (firstLabelMatch_some hm).2.1
            rw [← he, h] at hnone
            simp at hnone

/-- Any value a cell does write comes from that row: its cell matched an
unfilled field's label variants and the candidate is `cellCandidate` of
this row. -/
lemma cellStep_prov (rv : List String) (o : DocFields) (j : Nat) (f : MField) :
    (cellStep rv o j).get f = o.get f ∨
    ∃ vs v, (f, vs) ∈ LABELS
      ∧ vs.any (fun p => strContains (rv.getD j "") p) = true
      ∧ cellCandidate rv j = some v
      ∧ (cellStep rv o j).get f = some v := by
  unfold cellStep
  by_cases hc : rv.getD j "" = ""
  · rw [if_pos hc]
    left
    rfl
  · rw [if_neg hc]
    rcases hm : firstLabelMatch o (rv.getD j "") with _ | kv
    · left
      simp only [hm]
    · simp only [hm]
      rcases hcand : cellCandidate rv j with _ | w
      · left
        rfl
      · dsimp only
        by_cases hw : w = ""
        · rw [if_pos hw]
          left
          rfl
        · rw [if_neg hw]
          by_cases hf : f = kv.1
          · right
            obtain ⟨hmem, _, hany⟩ := firstLabelMatch_some hm
            refine ⟨kv.2, w, ?_, hany, rfl, ?_⟩
            · rw [hf]
              exact hmem
            · rw [DocFields.get_set, if_pos hf]
          · left
            rw [DocFields.get_set, if_neg hf]

lemma foldl_cellStep_mono (rv : List String) (l : List Nat) (o : DocFields)
    {f : MField} {v : String} (h : o.get f = some v) :
    (l.foldl (cellStep rv) o).get f = some v := by
  induction l generalizing o with
  | nil => exact h
  | cons j l ih => exact ih _ (cellStep_mono rv o j h)

lemma foldl_cellStep_prov (rv : List String) (l : List Nat) (o : DocFields)
    (f : MField) :
    (l.foldl (cellStep rv) o).get f = o.get f ∨
    ∃ j vs v, (f, vs) ∈ LABELS
      ∧ vs.any (fun p => strContains (rv.getD j "") p) = true
      ∧ cellCandidate rv j = some v
      ∧ (l.foldl (cellStep rv) o).get f = some v := by
  induction l generalizing o with
  | nil =>
    left
    rfl
  | cons j l ih =>
    rw [List.foldl_cons]
    rcases cellStep_prov rv o j f with h | ⟨vs, v, h1, h2, h3, h4⟩
    · rcases ih (cellStep rv o j) with h' | ⟨j', vs, v, h1, h2, h3, h4⟩
      · left
        rw [h', h]
      · right
        exact ⟨j', vs, v, h1, h2, h3, h4⟩
    · right
      exact ⟨j, vs, v, h1, h2, h3, foldl_cellStep_mono rv l _ h4⟩

lemma processRow_mono (o : DocFields) (row : List String) {f : MField} {v : String}
    (h : o.get f = some v) : (processRow o row).get f = some v :=
  foldl_cellStep_mono _ _ _ h

lemma processRow_prov (o : DocFields) (row : List String) (f : MField) :
    (processRow o row).get f = o.get f ∨
    ∃ j vs v, (f, vs) ∈ LABELS
      ∧ vs.any (fun p => strContains ((row.map normalize_ws).getD j "") p) = true
      ∧ cellCandidate (row.map normalize_ws) j = some v
      ∧ (processRow o row).get f = some v := by
  unfold processRow
  exact foldl_cellStep_prov _ _ _ _

lemma processTable_mono (t : List (List String)) (o : DocFields) {f : MField}
    {v : String} (h : o.get f = some v) :
    (t.foldl processRow o).get f = some v := by
  induction t generalizing o with
  | nil => exact h
  | cons r t ih => exact ih _ (processRow_mono o r h)

/-! Rights-issue scan counterparts. -/

lemma RIRaw.getF_setF (raw : RIRaw) (f g : RIField) (val header : String) :
    (raw.setF f val header).getF g = if g = f then some val else raw.getF g := by
  cases f <;> cases g <;> simp [RIRaw.getF, RIRaw.setF]

/-- The row scan never erases an already-stored field. -/
lemma riCellStep_mono (cells : List String) (raw : RIRaw) (i : Nat) {f : RIField}
    {v : String} (h : raw.getF f = some v) :
    (riCellStep cells raw i).getF f = some v := by
  unfold riCellStep
  by_cases h1 : i + 1 < cells.length
  · rw [if_pos h1]
    rcases hm : riFields.find? (fun g =>
        (raw.getF g).isNone && riHdrMatch g (stripHdr (cells.getD i ""))) with _ | g
    · simp only [hm]
      exact h
    · simp only [hm]
      rw [RIRaw.getF_setF, if_neg]
      · exact h
      · intro he
        have hp := List.find?_some hm
        rw [Bool.and_eq_true] at hp
        rw [← he, h] at hp
        simp at hp
  · rw [if_neg h1]
    exact h

/-- Any value the row scan writes comes from the same row: some cell's
stripped header matches the field's label regex and the candidate is the
join of the cells to its right. -/
lemma riCellStep_prov (cells : List String) (raw : RIRaw) (i : Nat) (f : RIField) :
    (riCellStep cells raw i).getF f = raw.getF f ∨
    (i + 1 < cells.length
      ∧ riHdrMatch f (stripHdr (cells.getD i "")) = true
      ∧ (riCellStep cells raw i).getF f = some (joinSp (cells.drop (i + 1)))) := by
  unfold riCellStep
  by_cases h1 : i + 1 < cells.length
  · rw [if_pos h1]
    rcases hm : riFields.find? (fun g =>
        (raw.getF g).isNone && riHdrMatch g (stripHdr (cells.getD i ""))) with _ | g
    · left
      simp only [hm]
    · simp only [hm]
      by_cases hf : f = g
      · right
        have hp := List.find?_some hm
        rw [Bool.and_eq_true] at hp
        refine ⟨h1, ?_, ?_⟩
        · rw [hf]
          exact hp.2
        · rw [RIRaw.getF_setF, if_pos hf]
      · left
        rw [RIRaw.getF_setF, if_neg hf]
  · rw [if_neg h1]
    left
    rfl

lemma foldl_riCellStep_mono (cells : List String) (l : List Nat) (raw : RIRaw)
    {f : RIField} {v : String} (h : raw.getF f = some v) :
    (l.foldl (riCellStep cells) raw).getF f = some v := by
  induction l generalizing raw with
  | nil => exact h
  | cons i l ih => exact ih _ (riCellStep_mono cells raw i h)

lemma riScanRow_mono (raw : RIRaw) (cells : List String) {f : RIField} {v : String}
    (h : raw.getF f = some v) : (riScanRow raw cells).getF f = some v :=
  foldl_riCellStep_mono cells _ raw h

lemma foldl_riCellStep_prov (cells : List String) (l : List Nat) (raw : RIRaw)
    (f : RIField) :
    (l.foldl (riCellStep cells) raw).getF f = raw.getF f ∨
    ∃ i, i + 1 < cells.length
      ∧ riHdrMatch f (stripHdr (cells.getD i "")) = true
      ∧ (l.foldl (riCellStep cells) raw).getF f = some (joinSp (cells.drop (i + 1))) := by
  induction l generalizing raw with
  | nil =>
    left
    rfl
  | cons i l ih =>
    rw [List.foldl_cons]
    rcases riCellStep_prov cells raw i f with h | ⟨h1, h2, h3⟩
    · rcases ih (riCellStep cells raw i) with h' | ⟨i', h1, h2, h3⟩
      · left
        rw [h', h]
      · right
        exact ⟨i', h1, h2, h3⟩
    · right
      exact ⟨i, h1, h2, foldl_riCellStep_mono cells l _ h3⟩

/-- C7: in both structural tiers a field's candidate is built only from
the remaining cells of the row whose cell matched that field's
label-pattern set (`cellCandidate` of the same row in main.py's
`extract_from_tables`; the join of the cells right of the matching header
in rights_issue.py's row scan), and the first matching occurrence in
document order wins — once a field holds a candidate, no later cell, row
or table changes it. -/
theorem structural_tier_same_row_first_match :
    (∀ o row f v, DocFields.get o f = some v →
      (processRow o row).get f = some v)
    ∧ (∀ dfs t f v, (extract_from_tables dfs).get f = some v →
      (extract_from_tables (dfs ++ [t])).get f = some v)
    ∧ (∀ o row f,
      (processRow o row).get f = DocFields.get o f ∨
      ∃ j vs v, (f, vs) ∈ LABELS
        ∧ vs.any (fun p => strContains ((row.map normalize_ws).getD j "") p) = true
        ∧ cellCandidate (row.map normalize_ws) j = some v
        ∧ (processRow o row).get f = some v)
    ∧ (∀ raw cells f v, RIRaw.getF raw f = some v →
      (riScanRow raw cells).getF f = some v)
    ∧ (∀ raw cells f,
      (riScanRow raw cells).getF f = RIRaw.getF raw f ∨
      ∃ i, i + 1 < cells.length
        ∧ riHdrMatch f (stripHdr (cells.getD i "")) = true
        ∧ (riScanRow raw cells).getF f = some (joinSp (cells.drop (i + 1))))
    ∧ (∀ trs t f v, (riScan trs).getF f = some v →
      (riScan (trs ++ [t])).getF f = some v) := by
  refine ⟨?_, ?_, ?_, ?_, ?_, ?_⟩
  · intro o row f v h
    exact processRow_mono o row h
  · intro dfs t f v h
    unfold extract_from_tables at h ⊢
    rw [List.foldl_append]
    exact processTable_mono t _ h
  · intro o row f
    exact processRow_prov o row f
  · intro raw cells f v h
    exact riScanRow_mono raw cells h
  · intro raw cells f
    unfold riScanRow
    exact foldl_riCellStep_prov cells _ raw f
  · intro trs t f v h
    unfold riScan at h ⊢
    rw [List.foldl_append]
    exact riScanRow_mono _ t h

/-- Witness for C7: a board-resolution date already found survives a
later matching row; an extracted subscription date survives an appended
conflicting table; the rights-issue scan behaves the same for its base
price. -/
theorem structural_tier_same_row_first_match_witness :
    (processRow { board_date := some "2026년 01월 02일" }
        ["이사회결의일", "9999"]).get .board_date = some "2026년 01월 02일"
    ∧ (extract_from_tables ([[["청약일", "2026.01.03"]]] ++ [[["청약일", "8888"]]])).get
        .subscription_date = some "2026.01.03"
    ∧ (riScanRow { issue_price := some "9,200" }
        ["확정발행가액", "7,777"]).getF .issue_price = some "9,200"
    ∧ (riScan ([[["기준주가", "10,000"]]] ++ [[["기준주가", "8,000"]]]).flatten).getF
        .base_price = some "10,000" := by
  refine ⟨?_, ?_, ?_, ?_⟩
  · exact structural_tier_same_row_first_match.1 _ _ .board_date _ rfl
  · exact structural_tier_same_row_first_match.2.1 [[["청약일", "2026.01.03"]]]
      [["청약일", "8888"]] .subscription_date "2026.01.03" (by decide)
  · exact structural_tier_same_row_first_match.2.2.2.1 _ _ .issue_price _ rfl
  · exact structural_tier_same_row_first_match.2.2.2.2.2 [["기준주가", "10,000"]]
      ["기준주가", "8,000"] .base_price "10,000" (by decide)

end DartDB
